import Mathlib

/-
  Verification development for the WHOIS / TLS-inspection core of the
  `utils_api` repository (`pkg/utils/domain/whois.go` and
  `internal/utils/domain/ssl.go`).

  The Go code is shallowly embedded: strings are `String` / `List Char`,
  Go `time.Time` values appearing in WHOIS records are component records
  (`DateTime`), TLS certificate instants are `Int` nanoseconds since the
  Unix epoch, Go slices (which distinguish nil from empty) are
  `Option (List _)`, fallible operations return `Option` / explicit
  error sums, and network I/O is an oracle parameter mapping a server
  name to either a failure message or a raw response body.

  Library functions used by the source (`time.Parse`, `regexp` matching
  of the ten whois field patterns, `strings.TrimSpace` / `ToLower` /
  `EqualFold` / `Split`) are modelled on the ASCII fragment that the
  code exercises; each model carries a comment naming the Go function
  and semantics it embeds.
-/

set_option maxHeartbeats 1600000

namespace UtilsApi

/-- ASCII lowercasing of one character.  Models the ASCII case folding used by
Go's `strings.EqualFold`, `strings.ToLower`, the `(?i)` regexp flag, and the
case-insensitive month-name matching inside `time.Parse`, on the ASCII data
the whois code handles. -/
def asciiLower (c : Char) : Char :=
  if 65 ≤ c.toNat ∧ c.toNat ≤ 90 then Char.ofNat (c.toNat + 32) else c

/-- Whitespace predicate of Go `unicode.IsSpace` restricted to ASCII
(`\t \n \v \f \r ' '`); used by `strings.TrimSpace`. -/
def goIsSpace (c : Char) : Bool :=
  c = ' ' || c = '\t' || c = '\n' || c = '\x0b' || c = '\x0c' || c = '\r'

/-- The character class `\s` of Go's `regexp` package: `[\t\n\f\r ]`. -/
def reSpace (c : Char) : Bool :=
  c = '\t' || c = '\n' || c = '\x0c' || c = '\r' || c = ' '

/-- The character class `.` of Go's `regexp` package: any rune except newline. -/
def reDot (c : Char) : Bool := c ≠ '\n'

/-- ASCII decimal digit test (`'0'` to `'9'`, code points 48-57), as used
by Go `time`'s `isDigit`. -/
def goIsDigit (c : Char) : Bool := 48 ≤ c.toNat && c.toNat ≤ 57

/-- Numeric value of an ASCII digit character. -/
def digitVal (c : Char) : Nat := c.toNat - 48

/-- The ASCII digit character of a value `d < 10`. -/
def digitChar (d : Nat) : Char := Char.ofNat (48 + d)

/-- `strings.TrimSpace` on a character list (ASCII whitespace fragment). -/
def goTrimSpaceL (cs : List Char) : List Char :=
  ((cs.dropWhile goIsSpace).reverse.dropWhile goIsSpace).reverse

/-- `strings.ToLower` on a character list (ASCII fragment). -/
def goToLowerL (cs : List Char) : List Char := cs.map asciiLower

/-- `strings.Split` with a one-character separator: splits into the
(possibly empty) chunks between occurrences of `sep`; the empty input
yields `[[]]`, exactly as `strings.Split("", sep) = [""]`. -/
def charSplit (sep : Char) : List Char → List (List Char)
  | [] => [[]]
  | c :: cs =>
    if c = sep then [] :: charSplit sep cs
    else
      match charSplit sep cs with
      | [] => [[c]]
      | l :: ls => (c :: l) :: ls

/-- Case-insensitive (ASCII fold) stripping of the literal `pat` from the
front of the input, returning the rest on success.  Models both the
byte-wise case-insensitive matching of Go `time`'s `match`/`lookup` and a
`(?i)` literal of `regexp`. -/
def stripCI : List Char → List Char → Option (List Char)
  | [], cs => some cs
  | _ :: _, [] => none
  | p :: ps, c :: cs => if asciiLower c = asciiLower p then stripCI ps cs else none

/-- Exact (case-sensitive) stripping of a literal from the front of the input,
as Go `time.Parse` requires for literal layout text. -/
def stripExact : List Char → List Char → Option (List Char)
  | [], cs => some cs
  | _ :: _, [] => none
  | p :: ps, c :: cs => if c = p then stripExact ps cs else none

/-- Component view of a Go `time.Time` as produced by the `time.Parse` calls
in `parseDate`: calendar fields plus a fixed zone offset in minutes
(`offMin = 0` is UTC).  The Go zero value `time.Time{}` corresponds to
`zeroDateTime` below. -/
structure DateTime where
  year : Nat
  month : Nat
  day : Nat
  hour : Nat
  minute : Nat
  second : Nat
  nanos : Nat
  offMin : Int
deriving Repr, DecidableEq

/-- The Go zero time `time.Time{}`: January 1, year 1, 00:00:00 UTC. -/
def zeroDateTime : DateTime := ⟨1, 1, 1, 0, 0, 0, 0, 0⟩

/-- Gregorian leap-year rule (as in Go `time.isLeap`). -/
def isLeapYear (y : Nat) : Bool :=
  y % 4 = 0 && (y % 100 ≠ 0 || y % 400 = 0)

/-- Days in a month (as in Go `time.daysIn`), used by `time.Parse`'s
"day out of range" check. -/
def daysInMonth (y m : Nat) : Nat :=
  if m = 2 then (if isLeapYear y then 29 else 28)
  else if m = 4 ∨ m = 6 ∨ m = 9 ∨ m = 11 then 30
  else 31

/-- Days from the civil epoch 1970-01-01 to year/month/day
(standard era-based civil-calendar computation). -/
def civilDays (y m d : Nat) : Int :=
  let yi : Int := y
  let y' : Int := if m ≤ 2 then yi - 1 else yi
  let era : Int := Int.fdiv y' 400
  let yoe : Int := y' - era * 400
  let mp : Int := ((m : Int) + 9) % 12
  let doy : Int := (153 * mp + 2) / 5 + (d : Int) - 1
  let doe : Int := yoe * 365 + yoe / 4 - yoe / 100 + doy
  era * 146097 + doe - 719468

/-- The instant (Unix seconds) denoted by a `DateTime`. -/
def toUnixSec (t : DateTime) : Int :=
  civilDays t.year t.month t.day * 86400 + (t.hour : Int) * 3600 +
    (t.minute : Int) * 60 + (t.second : Int) - t.offMin * 60

/-- Go `Time.IsZero`: the value denotes the same instant as `time.Time{}`
(January 1, year 1, 00:00:00 UTC) with zero nanoseconds. -/
def isZeroTime (t : DateTime) : Bool :=
  toUnixSec t == toUnixSec zeroDateTime && t.nanos == 0

/-- Layout tokens of the Go `time.Parse` reference layouts used by
`parseDate`, one constructor per `std*` chunk kind that those eight
layout strings contain. -/
inductive LTok where
  /-- literal layout text, matched exactly -/
  | lit (s : List Char)
  /-- `2006`: exactly four digits -/
  | year4
  /-- `01`: exactly two digits, month -/
  | monthNum
  /-- `02`: exactly two digits, day -/
  | dayZero
  /-- `2`: one or two digits, day -/
  | dayFlex
  /-- `15`: one or two digits, hour -/
  | hourFlex
  /-- `04`: exactly two digits, minute -/
  | minuteZero
  /-- `05`: exactly two digits, second (plus Go's optional unsolicited
  fractional second immediately after) -/
  | secondZero
  /-- `Jan` / `January`: month by name, case-insensitive table lookup -/
  | monthName (long : Bool)
  /-- `Z07:00`: `Z` for UTC or a signed `hh:mm` offset -/
  | zoneISO

/-- Parse state of `time.Parse`: Go defaults month and day to 1 and
everything else to zero when a layout omits them. -/
structure PState where
  year : Nat
  month : Nat
  day : Nat
  hour : Nat
  minute : Nat
  second : Nat
  nanos : Nat
  offMin : Int
deriving Repr, DecidableEq

def initPState : PState := ⟨0, 1, 1, 0, 0, 0, 0, 0⟩

/-- Read exactly `k` ASCII digits (accumulating their value), failing on
anything else — Go `getnum` with `fixed = true` (and the four-digit year
read of `stdLongYear`). -/
def readDigitsAcc : Nat → Nat → List Char → Option (Nat × List Char)
  | 0, acc, cs => some (acc, cs)
  | _ + 1, _, [] => none
  | k + 1, acc, c :: cs =>
    if goIsDigit c then readDigitsAcc k (acc * 10 + digitVal c) cs else none

def readFixed (k : Nat) (cs : List Char) : Option (Nat × List Char) :=
  readDigitsAcc k 0 cs

/-- Go `getnum` with `fixed = false`: one digit, or two if the second
character is also a digit. -/
def readFlex : List Char → Option (Nat × List Char)
  | [] => none
  | c :: cs =>
    if goIsDigit c then
      match cs with
      | c2 :: cs2 =>
        if goIsDigit c2 then some (digitVal c * 10 + digitVal c2, cs2)
        else some (digitVal c, c2 :: cs2)
      | [] => some (digitVal c, [])
    else none

def shortMonthNames : List (List Char) :=
  ["Jan", "Feb", "Mar", "Apr", "May", "Jun",
   "Jul", "Aug", "Sep", "Oct", "Nov", "Dec"].map String.toList

def longMonthNames : List (List Char) :=
  ["January", "February", "March", "April", "May", "June", "July",
   "August", "September", "October", "November", "December"].map String.toList

/-- Go `time`'s `lookup`: return the 1-based index of the first table name
that is a case-insensitive prefix of the input, with the rest of the input. -/
def monthLookup (i : Nat) : List (List Char) → List Char → Option (Nat × List Char)
  | [], _ => none
  | n :: ns, cs =>
    match stripCI n cs with
    | some rest => some (i, rest)
    | none => monthLookup (i + 1) ns cs

/-- Go `time.Parse`'s permissive fractional second: immediately after the
seconds field, a `.` or `,` followed by digits is consumed even though no
layout asks for it; the first nine digits become nanoseconds. -/
def readFrac (nanos0 : Nat) (cs : List Char) : Nat × List Char :=
  match cs with
  | p :: c :: rest =>
    if (p = '.' ∨ p = ',') ∧ goIsDigit c then
      let ds := (c :: rest).takeWhile goIsDigit
      let ds9 := ds.take 9
      let v := ds9.foldl (fun a ch => a * 10 + digitVal ch) 0
      (v * 10 ^ (9 - ds9.length), (c :: rest).drop ds.length)
    else (nanos0, p :: c :: rest)
  | cs => (nanos0, cs)

/-- One step of `time.Parse`'s layout-chunk loop. -/
def stepTok (sc : PState × List Char) (tok : LTok) : Option (PState × List Char) :=
  let st := sc.1
  let cs := sc.2
  match tok with
  | .lit s => (stripExact s cs).map (fun r => (st, r))
  | .year4 => (readFixed 4 cs).map (fun nr => ({st with year := nr.1}, nr.2))
  | .monthNum => (readFixed 2 cs).map (fun nr => ({st with month := nr.1}, nr.2))
  | .dayZero => (readFixed 2 cs).map (fun nr => ({st with day := nr.1}, nr.2))
  | .dayFlex => (readFlex cs).map (fun nr => ({st with day := nr.1}, nr.2))
  | .hourFlex => (readFlex cs).map (fun nr => ({st with hour := nr.1}, nr.2))
  | .minuteZero => (readFixed 2 cs).map (fun nr => ({st with minute := nr.1}, nr.2))
  | .secondZero =>
    (readFixed 2 cs).map (fun nr =>
      let fr := readFrac st.nanos nr.2
      ({st with second := nr.1, nanos := fr.1}, fr.2))
  | .monthName long =>
    (monthLookup 1 (match long with
      | true => longMonthNames
      | false => shortMonthNames) cs).map
      (fun mr => ({st with month := mr.1}, mr.2))
  | .zoneISO =>
    match cs with
    | [] => none
    | c :: rest =>
      if c = 'Z' then some ({st with offMin := 0}, rest)
      else if c = '+' ∨ c = '-' then
        match readFixed 2 rest with
        | some (hh, r1) =>
          match r1 with
          | c2 :: r2 =>
            if c2 = ':' then
              match readFixed 2 r2 with
              | some (mm, r3) =>
                some ({st with offMin :=
                  (if c = '-' then -1 else 1) * ((hh : Int) * 60 + mm)}, r3)
              | none => none
            else none
          | [] => none
        | none => none
      else none

/-- Run all layout chunks in order over the input. -/
def runToks : List LTok → PState × List Char → Option (PState × List Char)
  | [], sc => some sc
  | t :: ts, sc => (stepTok sc t).bind (runToks ts)

/-- `time.Parse`'s trailing checks: all input must be consumed
("extra text"), and month, day (against `daysIn`), hour, minute and
second must be in range. -/
def finishParse (sc : PState × List Char) : Option DateTime :=
  let st := sc.1
  if sc.2 = [] ∧ 1 ≤ st.month ∧ st.month ≤ 12 ∧ 1 ≤ st.day ∧
      st.day ≤ daysInMonth st.year st.month ∧ st.hour ≤ 23 ∧
      st.minute ≤ 59 ∧ st.second ≤ 59 then
    some ⟨st.year, st.month, st.day, st.hour, st.minute, st.second, st.nanos, st.offMin⟩
  else none

/-- Go `time.Parse` with a fixed tokenised layout. -/
def goTimeParse (toks : List LTok) (cs : List Char) : Option DateTime :=
  (runToks toks (initPState, cs)).bind finishParse

/-- Layout `"2006-01-02T15:04:05Z07:00"` (RFC3339). -/
def layoutRFC3339 : List LTok :=
  [.year4, .lit ['-'], .monthNum, .lit ['-'], .dayZero, .lit ['T'],
   .hourFlex, .lit [':'], .minuteZero, .lit [':'], .secondZero, .zoneISO]

/-- Layout `"2006-01-02T15:04:05Z"` (RFC3339 UTC; the trailing `Z` is a
literal in Go's layout grammar since it is not followed by `07:00`). -/
def layoutRFC3339Z : List LTok :=
  [.year4, .lit ['-'], .monthNum, .lit ['-'], .dayZero, .lit ['T'],
   .hourFlex, .lit [':'], .minuteZero, .lit [':'], .secondZero, .lit ['Z']]

/-- Layout `"2006-01-02 15:04:05"` (MySQL datetime). -/
def layoutDateTimeSp : List LTok :=
  [.year4, .lit ['-'], .monthNum, .lit ['-'], .dayZero, .lit [' '],
   .hourFlex, .lit [':'], .minuteZero, .lit [':'], .secondZero]

/-- Layout `"2006-01-02"` (date only). -/
def layoutDateOnly : List LTok :=
  [.year4, .lit ['-'], .monthNum, .lit ['-'], .dayZero]

/-- Layout `"02-Jan-2006"`. -/
def layoutDayMonYear : List LTok :=
  [.dayZero, .lit ['-'], .monthName false, .lit ['-'], .year4]

/-- Layout `"January 02 2006"`. -/
def layoutMonthDayYear : List LTok :=
  [.monthName true, .lit [' '], .dayZero, .lit [' '], .year4]

/-- Layout `"2-Jan-2006"`. -/
def layoutDayFlexMonYear : List LTok :=
  [.dayFlex, .lit ['-'], .monthName false, .lit ['-'], .year4]

/-- Layout `"2006/01/02"`. -/
def layoutSlashDate : List LTok :=
  [.year4, .lit ['/'], .monthNum, .lit ['/'], .dayZero]

/-- The ordered layout list of `parseDate` (whois.go lines 216-225). -/
def whoisDateFormats : List (List LTok) :=
  [layoutRFC3339, layoutRFC3339Z, layoutDateTimeSp, layoutDateOnly,
   layoutDayMonYear, layoutMonthDayYear, layoutDayFlexMonYear, layoutSlashDate]

/-- `parseDate` (whois.go lines 212-234): trim the input, try the fixed
layouts in order, return the first successful parse, else the zero time. -/
def parseDateL (cs : List Char) : DateTime :=
  let t := goTrimSpaceL cs
  (whoisDateFormats.findSome? (fun f => goTimeParse f t)).getD zeroDateTime

def parseDate (s : String) : DateTime := parseDateL s.toList

/-- Two-digit zero-padded decimal, as Go `time.Format` produces for the
`01`/`02`/`15`/`04`/`05` layout chunks of values below 100. -/
def pad2 (n : Nat) : List Char := [digitChar (n / 10), digitChar (n % 10)]

/-- Four-digit zero-padded decimal, as Go `time.Format` produces for a
`2006` chunk of years 0–9999. -/
def pad4 (n : Nat) : List Char :=
  [digitChar (n / 1000), digitChar (n / 100 % 10), digitChar (n / 10 % 10),
   digitChar (n % 10)]

/-- Unpadded day for the `2` chunk (days are at most 31). -/
def fmtNoPad2 (n : Nat) : List Char :=
  if n < 10 then [digitChar n] else pad2 n

/-- Go `time.Format` for the `Z07:00` chunk: `Z` at offset zero, else a
signed `hh:mm` offset. -/
def fmtZoneISO (off : Int) : List Char :=
  if off = 0 then ['Z']
  else (if off < 0 then '-' else '+') :: (pad2 (off.natAbs / 60) ++ ':' :: pad2 (off.natAbs % 60))

def fmtDatePart (t : DateTime) : List Char :=
  pad4 t.year ++ '-' :: pad2 t.month ++ '-' :: pad2 t.day

def fmtTimePart (t : DateTime) : List Char :=
  pad2 t.hour ++ ':' :: pad2 t.minute ++ ':' :: pad2 t.second

/-- Go `time.Format` with layout `"2006-01-02T15:04:05Z07:00"`. -/
def formatRFC3339 (t : DateTime) : List Char :=
  fmtDatePart t ++ 'T' :: fmtTimePart t ++ fmtZoneISO t.offMin

/-- Go `time.Format` with layout `"2006-01-02T15:04:05Z"` (UTC values). -/
def formatRFC3339Z (t : DateTime) : List Char :=
  fmtDatePart t ++ 'T' :: fmtTimePart t ++ ['Z']

/-- Go `time.Format` with layout `"2006-01-02 15:04:05"`. -/
def formatDateTimeSp (t : DateTime) : List Char :=
  fmtDatePart t ++ ' ' :: fmtTimePart t

/-- Go `time.Format` with layout `"2006-01-02"`. -/
def formatDateOnly (t : DateTime) : List Char := fmtDatePart t

/-- Go `time.Format` with layout `"02-Jan-2006"`. -/
def formatDayMonYear (t : DateTime) : List Char :=
  pad2 t.day ++ '-' :: (shortMonthNames.getD (t.month - 1) []) ++ '-' :: pad4 t.year

/-- Go `time.Format` with layout `"January 02 2006"`. -/
def formatMonthDayYear (t : DateTime) : List Char :=
  (longMonthNames.getD (t.month - 1) []) ++ ' ' :: pad2 t.day ++ ' ' :: pad4 t.year

/-- Go `time.Format` with layout `"2-Jan-2006"`. -/
def formatDayFlexMonYear (t : DateTime) : List Char :=
  fmtNoPad2 t.day ++ '-' :: (shortMonthNames.getD (t.month - 1) []) ++ '-' :: pad4 t.year

/-- Go `time.Format` with layout `"2006/01/02"`. -/
def formatSlashDate (t : DateTime) : List Char :=
  pad4 t.year ++ '/' :: pad2 t.month ++ '/' :: pad2 t.day

/-- Token of one of the ten field regexes of `parseWhoisResponse`
(whois.go lines 135-146).  Each of those patterns is a sequence of
case-insensitive literals, ordered alternations of literals (`(a|b)` and
the greedy optional group `(x)?`, encoded as alternatives `[x, ""]`),
greedy single-character-class stars (`\s*`, `.*`), and one final greedy
capture `(.+)` whose text is the only submatch the Go code reads. -/
inductive RTok where
  | lit (s : List Char)
  | alts (ss : List (List Char))
  | star (p : Char → Bool)
  | valPlus

/-- Backtracking matcher for a token sequence at a fixed start position,
with Go `regexp`'s leftmost-first (Perl-like) disambiguation: alternatives
are tried in order and stars greedily longest-first.  Returns the text of
the final `(.+)` capture on success.  The structural fuel argument only
serves termination: every recursive call strips one token, so any fuel
above the token count is enough. -/
def matchToksF : Nat → List RTok → List Char → Option (List Char)
  | 0, _, _ => none
  | _ + 1, [], _ => none
  | fuel + 1, .lit s :: ts, cs => (stripCI s cs).bind (fun r => matchToksF fuel ts r)
  | fuel + 1, .alts ss :: ts, cs =>
    ss.findSome? (fun s => (stripCI s cs).bind (fun r => matchToksF fuel ts r))
  | fuel + 1, .star p :: ts, cs =>
    let m := (cs.takeWhile p).length
    (List.range (m + 1)).findSome? (fun i => matchToksF fuel ts (cs.drop (m - i)))
  | _ + 1, .valPlus :: _, cs =>
    let v := cs.takeWhile (fun c => c ≠ '\n')
    if v.isEmpty then none else some v

def matchToks (ts : List RTok) (cs : List Char) : Option (List Char) :=
  matchToksF (ts.length + 1) ts cs

/-- `FindStringSubmatch`'s position scan: try every start position from the
left and take the first that matches (leftmost match). -/
def findLeftmost (ts : List RTok) : List Char → Option (List Char)
  | [] => matchToks ts []
  | c :: cs =>
    match matchToks ts (c :: cs) with
    | some v => some v
    | none => findLeftmost ts cs

/-- The `(.+)` capture of the leftmost match of a field pattern in a line,
i.e. the last entry of Go's `FindStringSubmatch` result — the only one
`parseWhoisResponse` uses. -/
def findValue (ts : List RTok) (line : List Char) : Option (List Char) :=
  findLeftmost ts line

/-- `(?i)registrar:\s*(.+)` -/
def registrarToks : List RTok :=
  [.lit "registrar:".toList, .star reSpace, .valPlus]

/-- `(?i)(creation date|created|registered):\s*(.+)` -/
def creationToks : List RTok :=
  [.alts ["creation date".toList, "created".toList, "registered".toList],
   .lit [':'], .star reSpace, .valPlus]

/-- `(?i)(expir|expires).*:\s*(.+)` -/
def expirationToks : List RTok :=
  [.alts ["expir".toList, "expires".toList], .star reDot,
   .lit [':'], .star reSpace, .valPlus]

/-- `(?i)(updated|last updated|modified).*:\s*(.+)` -/
def updatedToks : List RTok :=
  [.alts ["updated".toList, "last updated".toList, "modified".toList],
   .star reDot, .lit [':'], .star reSpace, .valPlus]

/-- `(?i)name server:\s*(.+)` -/
def nameServerToks : List RTok :=
  [.lit "name server:".toList, .star reSpace, .valPlus]

/-- `(?i)(domain )?status:\s*(.+)` -/
def statusToks : List RTok :=
  [.alts ["domain ".toList, []], .lit "status:".toList, .star reSpace, .valPlus]

/-- `(?i)registrant.*organization:\s*(.+)` -/
def registrantOrgToks : List RTok :=
  [.lit "registrant".toList, .star reDot, .lit "organization:".toList,
   .star reSpace, .valPlus]

/-- `(?i)registrant.*email:\s*(.+)` -/
def registrantEmailToks : List RTok :=
  [.lit "registrant".toList, .star reDot, .lit "email:".toList,
   .star reSpace, .valPlus]

/-- `(?i)admin.*email:\s*(.+)` -/
def adminEmailToks : List RTok :=
  [.lit "admin".toList, .star reDot, .lit "email:".toList,
   .star reSpace, .valPlus]

/-- `(?i)tech.*email:\s*(.+)` -/
def techEmailToks : List RTok :=
  [.lit "tech".toList, .star reDot, .lit "email:".toList,
   .star reSpace, .valPlus]

/-- The `WhoisInfo` struct (whois.go lines 14-29).  Go's nil/empty slice
distinction for `NameServers` and `Status` is kept by using
`Option (List String)` with `none` as the nil slice.  Date fields are
`DateTime` values defaulting to the Go zero time. -/
structure WhoisInfo where
  domain : String
  registrar : String
  creationDate : DateTime
  expirationDate : DateTime
  updatedDate : DateTime
  nameServers : Option (List String)
  status : Option (List String)
  registrantOrg : String
  registrantEmail : String
  adminEmail : String
  techEmail : String
  rawData : String
  whoisServer : String
  queryTime : DateTime
deriving Repr, DecidableEq

/-- Go `append` on a possibly-nil string slice: always yields a non-nil
slice with the element at the end. -/
def goAppend (s : Option (List String)) (x : String) : Option (List String) :=
  some (s.getD [] ++ [x])

/-- The loop body of `removeDuplicates` (whois.go lines 241-246): keep an
element iff it has not been seen, remembering seen elements. -/
def removeDupGo : List String → List String → List String
  | [], _ => []
  | x :: xs, seen =>
    if x ∈ seen then removeDupGo xs seen else x :: removeDupGo xs (x :: seen)

/-- `removeDuplicates` (whois.go lines 237-249): ranges over the (possibly
nil) slice starting from the non-nil empty `result` slice, so the output
is always non-nil. -/
def removeDuplicates (s : Option (List String)) : Option (List String) :=
  some (removeDupGo (s.getD []) [])

def strOf (cs : List Char) : String := String.mk cs

/-- The registrar update of `parseWhoisResponse` (whois.go lines 155-157). -/
def updRegistrar (line : List Char) (info : WhoisInfo) : WhoisInfo :=
  match findValue registrarToks line with
  | some v => {info with registrar := strOf (goTrimSpaceL v)}
  | none => info

/-- The creation-date update (whois.go lines 159-163): parse the capture
and store it only when non-zero. -/
def updCreation (line : List Char) (info : WhoisInfo) : WhoisInfo :=
  match findValue creationToks line with
  | some v =>
    let d := parseDateL v
    if isZeroTime d then info else {info with creationDate := d}
  | none => info

/-- The expiration-date update (whois.go lines 165-169). -/
def updExpiration (line : List Char) (info : WhoisInfo) : WhoisInfo :=
  match findValue expirationToks line with
  | some v =>
    let d := parseDateL v
    if isZeroTime d then info else {info with expirationDate := d}
  | none => info

/-- The updated-date update (whois.go lines 171-175). -/
def updUpdated (line : List Char) (info : WhoisInfo) : WhoisInfo :=
  match findValue updatedToks line with
  | some v =>
    let d := parseDateL v
    if isZeroTime d then info else {info with updatedDate := d}
  | none => info

/-- The name-server update (whois.go lines 177-180): lowercase, trim, append. -/
def updNameServer (line : List Char) (info : WhoisInfo) : WhoisInfo :=
  match findValue nameServerToks line with
  | some v =>
    {info with nameServers := goAppend info.nameServers (strOf (goToLowerL (goTrimSpaceL v)))}
  | none => info

/-- The status update (whois.go lines 182-185): trim, append. -/
def updStatus (line : List Char) (info : WhoisInfo) : WhoisInfo :=
  match findValue statusToks line with
  | some v => {info with status := goAppend info.status (strOf (goTrimSpaceL v))}
  | none => info

/-- The registrant-organization update (whois.go lines 187-189). -/
def updRegistrantOrg (line : List Char) (info : WhoisInfo) : WhoisInfo :=
  match findValue registrantOrgToks line with
  | some v => {info with registrantOrg := strOf (goTrimSpaceL v)}
  | none => info

/-- The registrant-email update (whois.go lines 191-193). -/
def updRegistrantEmail (line : List Char) (info : WhoisInfo) : WhoisInfo :=
  match findValue registrantEmailToks line with
  | some v => {info with registrantEmail := strOf (goTrimSpaceL v)}
  | none => info

/-- The admin-email update (whois.go lines 195-197). -/
def updAdminEmail (line : List Char) (info : WhoisInfo) : WhoisInfo :=
  match findValue adminEmailToks line with
  | some v => {info with adminEmail := strOf (goTrimSpaceL v)}
  | none => info

/-- The tech-email update (whois.go lines 199-201). -/
def updTechEmail (line : List Char) (info : WhoisInfo) : WhoisInfo :=
  match findValue techEmailToks line with
  | some v => {info with techEmail := strOf (goTrimSpaceL v)}
  | none => info

/-- One iteration of the line loop of `parseWhoisResponse` (whois.go lines
148-202): trim the line, skip empty and `%`/`#` comment lines, otherwise
attempt every field pattern in source order. -/
def processLine (info : WhoisInfo) (lineRaw : List Char) : WhoisInfo :=
  let line := goTrimSpaceL lineRaw
  if line = [] ∨ line.head? = some '%' ∨ line.head? = some '#' then info
  else
    updTechEmail line (updAdminEmail line (updRegistrantEmail line
      (updRegistrantOrg line (updStatus line (updNameServer line
        (updUpdated line (updExpiration line (updCreation line
          (updRegistrar line info)))))))))

/-- The fresh record `parseWhoisResponse` starts from (whois.go lines
126-130): domain, raw text and server set, everything else the Go zero
value (nil slices, zero times, empty strings). -/
def initWhoisInfo (domain rawData server : String) : WhoisInfo :=
  { domain := domain, registrar := "", creationDate := zeroDateTime,
    expirationDate := zeroDateTime, updatedDate := zeroDateTime,
    nameServers := none, status := none, registrantOrg := "",
    registrantEmail := "", adminEmail := "", techEmail := "",
    rawData := rawData, whoisServer := server, queryTime := zeroDateTime }

/-- `parseWhoisResponse` (whois.go lines 125-209): split the raw text on
newlines, fold the line processor, then deduplicate the name-server and
status lists. -/
def parseWhoisResponse (domain rawData server : String) : WhoisInfo :=
  let info1 := (charSplit '\n' rawData.toList).foldl processLine
    (initWhoisInfo domain rawData server)
  { info1 with nameServers := removeDuplicates info1.nameServers,
               status := removeDuplicates info1.status }

/-- Canonical order-preserving first-occurrence deduplication, written the
way the spec describes it; used as the reference that `removeDuplicates`
is proved to refine. -/
def dedupFirst : List String → List String
  | [] => []
  | x :: xs => x :: dedupFirst (xs.filter (fun y => y ≠ x))
termination_by l => l.length
decreasing_by
  simp only [List.length_cons]
  exact Nat.lt_succ_of_le (List.length_filter_le _ _)

/-- The `WhoisError` struct (whois.go lines 31-35): domain, underlying
cause (its message), and the server that was tried. -/
structure WhoisError where
  domain : String
  err : String
  server : String
deriving Repr, DecidableEq

/-- The `error` results `GetWhoisInfo` can return: the plain
`fmt.Errorf` input-validation errors, or a `*WhoisError` from a server
attempt. -/
inductive LookupErr where
  | simpleErr (msg : String)
  | whoisErr (e : WhoisError)
deriving Repr, DecidableEq

/-- A network oracle standing for the TCP dial/write/read of
`queryWhoisServer`: for a server name, either a failure message
(connection, write or read failure) or the raw response text read until
the peer closed the connection. -/
def NetOracle : Type := String → Except String String

/-- `queryWhoisServer` (whois.go lines 85-122) over the oracle: a
transport failure is returned as an error, an empty response body is the
error `"empty response from server"`, and otherwise the response is parsed
and stamped with the query time. -/
def queryWhoisServer (net : NetOracle) (now : DateTime) (domain server : String) :
    Except String WhoisInfo :=
  match net server with
  | .error e => .error e
  | .ok rawData =>
    if rawData = "" then .error "empty response from server"
    else .ok {parseWhoisResponse domain rawData server with queryTime := now}

/-- The fallback loop of `GetWhoisInfo` (whois.go lines 71-81): try each
candidate in order, remember only the most recent failure (wrapped in a
`WhoisError`), return the first success immediately; when the list is
exhausted return the remembered failure.  The result pair mirrors Go's
`(*WhoisInfo, error)` return. -/
def queryLoop (net : NetOracle) (now : DateTime) (domain : String) :
    List String → Option WhoisError → Option WhoisInfo × Option LookupErr
  | [], lastErr => (none, lastErr.map .whoisErr)
  | server :: rest, _ =>
    match queryWhoisServer net now domain server with
    | .error e => queryLoop net now domain rest (some ⟨domain, e, server⟩)
    | .ok info => (some info, none)

/-- The `WhoisServers` table (whois.go lines 42-49), as the association
list of a Go map literal with distinct keys. -/
def whoisServersTable : List (String × List String) :=
  [("com", ["whois.verisign-grs.com", "whois.markmonitor.com"]),
   ("net", ["whois.verisign-grs.com"]),
   ("org", ["whois.pir.org"]),
   ("info", ["whois.afilias.net"]),
   ("biz", ["whois.neulevel.biz"]),
   ("default", ["whois.iana.org", "whois.internic.net"])]

/-- Go map indexing: first (unique) key match, `none` when absent. -/
def tableLookup : List (String × List String) → String → Option (List String)
  | [], _ => none
  | kv :: rest, key => if kv.1 = key then some kv.2 else tableLookup rest key

/-- The candidate-server selection of `GetWhoisInfo` (whois.go lines
66-69): index the table at the TLD (a missing key gives Go's nil slice),
and fall back to the `"default"` entry when the result is empty. -/
def serversFor (tld : String) : List String :=
  let servers := (tableLookup whoisServersTable tld).getD []
  if servers.length = 0 then (tableLookup whoisServersTable "default").getD []
  else servers

/-- `GetWhoisInfo` (whois.go lines 52-82): normalize (trim, lowercase),
reject the empty domain, reject domains without a `.` (fewer than two
dot-separated parts), select the candidate servers for the final label,
and run the fallback loop. -/
def getWhoisInfo (net : NetOracle) (now : DateTime) (domain : String) :
    Option WhoisInfo × Option LookupErr :=
  let d := strOf (goToLowerL (goTrimSpaceL domain.toList))
  if d = "" then (none, some (.simpleErr "domain cannot be empty"))
  else
    let parts := charSplit '.' d.toList
    if parts.length < 2 then (none, some (.simpleErr ("invalid domain format: " ++ d)))
    else
      let tld := strOf (parts.getLastD [])
      queryLoop net now d (serversFor tld) none

/-- `strings.EqualFold` on the ASCII fragment the certificate code
compares. -/
def goEqualFold (a b : String) : Bool :=
  goToLowerL a.toList = goToLowerL b.toList

/-- `strings.HasPrefix`. -/
def goHasPrefix (s pre : String) : Bool := pre.toList.isPrefixOf s.toList

/-- `strings.HasSuffix` (case-sensitive). -/
def goHasSuffix (s suf : String) : Bool := suf.toList.isSuffixOf s.toList

/-- `s[2:]` on the ASCII strings involved (byte and rune indexing agree). -/
def goDropTwo (s : String) : String := strOf (s.toList.drop 2)

/-- The certificate fields of `x509.Certificate` that `GetSSLInfo`,
`validateCertificate` and `matchesDomain` read.  Instants (`NotBefore`,
`NotAfter`, `now`) are `Int` nanoseconds since the Unix epoch, the
granularity of Go's `time.Duration`. -/
structure GoCert where
  subjectCommonName : String
  dnsNames : List String
  notBefore : Int
  notAfter : Int
  issuerString : String
  subjectString : String
  crlDistributionPoints : List String
  ocspServer : List String
deriving Repr, DecidableEq

/-- Go's truncating (toward zero) integer division, the semantics of both
`int64` division and the float-to-`int` conversion in
`int(time.Until(cert.NotAfter).Hours() / 24)`. -/
def goTruncDiv (a b : Int) : Int :=
  if 0 ≤ a then (a.toNat / b.toNat : Nat) else -((-a).toNat / b.toNat : Nat)

def nanosPerDay : Int := 86400000000000

/-- `matchesDomain` (ssl.go lines 429-450): common-name or SAN equality
under `EqualFold`, or a `*.`-wildcard SAN whose base the domain ends with
(case-sensitively, after a dot) or equals under `EqualFold`. -/
def matchesDomain (cert : GoCert) (domain : String) : Bool :=
  goEqualFold cert.subjectCommonName domain ||
    cert.dnsNames.any (fun name =>
      goEqualFold name domain ||
        (goHasPrefix name "*." &&
          (goHasSuffix domain ("." ++ goDropTwo name) ||
            goEqualFold domain (goDropTwo name))))

/-- `validateCertificate` (ssl.go lines 402-426): four independent,
non-short-circuiting checks, each appending its message. -/
def validateCertificate (now : Int) (cert : GoCert) (domain : String) : List String :=
  (if now > cert.notAfter then ["certificate has expired"] else []) ++
  (if now < cert.notBefore then ["certificate is not yet valid"] else []) ++
  (if matchesDomain cert domain then [] else ["certificate does not match domain"]) ++
  (if cert.crlDistributionPoints.length = 0 ∧ cert.ocspServer.length = 0 then
    ["no revocation checking mechanism available"] else [])

/-- The derived fields of `GetSSLInfo` (ssl.go lines 361-383) that the
claims concern. -/
structure SSLDerived where
  daysUntilExpiry : Int
  isValid : Bool
  validationErrors : List String
  isSelfSigned : Bool
  isWildcard : Bool
deriving Repr, DecidableEq

/-- The post-handshake computation of `GetSSLInfo` (ssl.go lines 361-383):
days-until-expiry as the truncating division of the remaining duration by
24 hours, validity iff that is positive and `now` is after `NotBefore`,
chain validation messages, self-signed and wildcard flags. -/
def getSSLDerived (now : Int) (domain : String) (cert : GoCert) : SSLDerived :=
  let daysUntilExpiry := goTruncDiv (cert.notAfter - now) nanosPerDay
  { daysUntilExpiry := daysUntilExpiry
    isValid := decide (daysUntilExpiry > 0) && decide (now > cert.notBefore)
    validationErrors := validateCertificate now cert domain
    isSelfSigned := cert.issuerString = cert.subjectString
    isWildcard := cert.dnsNames.any (fun name => goHasPrefix name "*.") }

/-- The domain-match rule exactly as the specification words it (§4.6):
the common name or some SAN equals the queried domain case-insensitively,
or some SAN of the form `*.base` has the domain equal to `base`
(case-insensitively) or ending with `.base`. -/
def MatchesDomainSpec (cert : GoCert) (domain : String) : Prop :=
  goEqualFold cert.subjectCommonName domain = true ∨
    ∃ san ∈ cert.dnsNames,
      goEqualFold san domain = true ∨
        ∃ base, san = "*." ++ base ∧
          (goEqualFold domain base = true ∨ goHasSuffix domain ("." ++ base) = true)

/-- A `DateTime` whose calendar fields are representable in the date and
time chunks shared by the whois date layouts: four-digit year, valid
month/day/hour/minute/second, and no fractional second (none of the
layouts can express one). -/
def RepresentableFields (t : DateTime) : Prop :=
  t.year ≤ 9999 ∧ 1 ≤ t.month ∧ t.month ≤ 12 ∧ 1 ≤ t.day ∧
    t.day ≤ daysInMonth t.year t.month ∧ t.hour ≤ 23 ∧ t.minute ≤ 59 ∧
    t.second ≤ 59 ∧ t.nanos = 0

instance (t : DateTime) : Decidable (RepresentableFields t) := by
  unfold RepresentableFields; infer_instance

/-- A probe instant used to exhibit the truncation behaviour of
`DaysUntilExpiry`: 2023-11-14T22:13:20 UTC in Unix nanoseconds. -/
def probeNow : Int := 1700000000000000000

/-- A certificate whose `NotAfter` lies exactly one hour before
`probeNow` (and which matches its domain, with revocation data present). -/
def expiredHourCert : GoCert :=
  { subjectCommonName := "example.com"
    dnsNames := ["example.com"]
    notBefore := 0
    notAfter := 1699996400000000000
    issuerString := "CN=issuer"
    subjectString := "CN=example.com"
    crlDistributionPoints := ["http://crl.example.com"]
    ocspServer := [] }

theorem removeDupGo_eq_dedupFirst (l seen : List String) :
    removeDupGo l seen = dedupFirst (l.filter (fun y => y ∉ seen)) := by
  induction l generalizing seen with
  | nil => simp [removeDupGo, dedupFirst]
  | cons x xs ih =>
    by_cases hx : x ∈ seen
    · simp [removeDupGo, hx, ih]
    · rw [removeDupGo, if_neg hx, List.filter_cons_of_pos (by simpa using hx)]
      rw [dedupFirst, ih (x :: seen)]
      congr 1
      rw [List.filter_filter]
      congr 1
      apply List.filter_congr
      intro a _
      by_cases h1 : a = x <;> by_cases h2 : a ∈ seen <;>
        simp [h1, h2, List.mem_cons]

theorem mem_dedupFirst {a : String} : ∀ {l : List String}, a ∈ dedupFirst l → a ∈ l
  | [], h => by rw [dedupFirst] at h; exact absurd h (List.not_mem_nil a)
  | x :: xs, h => by
    rw [dedupFirst] at h
    rcases List.mem_cons.mp h with h | h
    · exact h ▸ List.mem_cons_self _ _
    · exact List.mem_cons_of_mem _ (List.mem_of_mem_filter (mem_dedupFirst h))

termination_by l => l.length
decreasing_by
  simp only [List.length_cons]
  exact Nat.lt_succ_of_le (List.length_filter_le _ _)

theorem dedupFirst_nodup : ∀ (l : List String), (dedupFirst l).Nodup
  | [] => by simp [dedupFirst]
  | x :: xs => by
    rw [dedupFirst]
    refine List.nodup_cons.mpr ⟨fun hmem => ?_, dedupFirst_nodup _⟩
    have := List.of_mem_filter (mem_dedupFirst hmem)
    simp at this
termination_by l => l.length
decreasing_by
  simp only [List.length_cons]
  exact Nat.lt_succ_of_le (List.length_filter_le _ _)

theorem removeDupGo_nil_eq (l : List String) : removeDupGo l [] = dedupFirst l := by
  rw [removeDupGo_eq_dedupFirst]
  congr 1
  rw [show (fun y : String => decide (y ∉ ([] : List String))) = fun _ => true from by
    funext y; simp]
  exact List.filter_true l

/-- Claim C7: for every raw WHOIS text, the name-server and status lists
of the record returned by `parseWhoisResponse` contain no duplicates; the
Go dedup loop equals the order-preserving first-occurrence-kept
deduplication; and `Name Server: ns1.example.com` twice yields
`ns1.example.com` exactly once. -/
theorem C7_no_duplicate_lists :
    (∀ domain rawData server : String,
      ((parseWhoisResponse domain rawData server).nameServers.getD []).Nodup ∧
      ((parseWhoisResponse domain rawData server).status.getD []).Nodup) ∧
    (∀ l : List String, removeDupGo l [] = dedupFirst l) ∧
    (parseWhoisResponse "example.com"
      "Name Server: ns1.example.com\nName Server: ns1.example.com" "srv").nameServers =
      some ["ns1.example.com"] := by
  refine ⟨fun domain rawData server => ?_, removeDupGo_nil_eq, by decide⟩
  constructor <;>
    simp [parseWhoisResponse, removeDuplicates, removeDupGo_nil_eq, dedupFirst_nodup]

/-- Claim C10: `parseWhoisResponse` always returns non-nil (possibly
empty) name-server and status slices, for every input — including raw
text in which nothing matches, where both come back as the empty list. -/
theorem C10_lists_never_nil :
    (∀ domain rawData server : String,
      (parseWhoisResponse domain rawData server).nameServers.isSome = true ∧
      (parseWhoisResponse domain rawData server).status.isSome = true) ∧
    (parseWhoisResponse "example.com" "" "srv").nameServers = some [] ∧
    (parseWhoisResponse "example.com" "" "srv").status = some [] := by
  refine ⟨fun domain rawData server => ?_, by decide, by decide⟩
  constructor <;> simp [parseWhoisResponse, removeDuplicates]

theorem table_values_nonempty {tld : String} {l : List String}
    (h : tableLookup whoisServersTable tld = some l) : l ≠ [] := by
  simp only [whoisServersTable, tableLookup] at h
  repeat' split at h
  all_goals first
    | (injection h with h; subst h; simp)
    | simp_all

/-- Claim C8: a TLD with a registered entry in the WHOIS server table gets
exactly that ordered list of candidate servers; a TLD without an entry
gets exactly the default ordered list. -/
theorem C8_server_selection :
    (∀ (tld : String) (l : List String),
      tableLookup whoisServersTable tld = some l → serversFor tld = l) ∧
    (∀ tld : String, tableLookup whoisServersTable tld = none →
      serversFor tld = ["whois.iana.org", "whois.internic.net"]) := by
  constructor
  · intro tld l h
    have hne := table_values_nonempty h
    rw [serversFor, h]
    simp [List.length_eq_zero, hne]
  · intro tld h
    rw [serversFor, h]
    decide

theorem C8_server_selection_witness :
    serversFor "com" = ["whois.verisign-grs.com", "whois.markmonitor.com"] ∧
    serversFor "dev" = ["whois.iana.org", "whois.internic.net"] :=
  ⟨C8_server_selection.1 "com" _ (by decide), C8_server_selection.2 "dev" (by decide)⟩

theorem charSplit_eq_single {sep : Char} :
    ∀ {cs : List Char}, (∀ c ∈ cs, c ≠ sep) → charSplit sep cs = [cs]
  | [], _ => rfl
  | c :: cs, h => by
    rw [charSplit, if_neg (h c (List.mem_cons_self _ _)),
      charSplit_eq_single (fun x hx => h x (List.mem_cons_of_mem _ hx))]

/-- Claim C9: an input that is empty after trimming and lowercasing, or
that contains no dot, makes `GetWhoisInfo` fail immediately with the
corresponding input-validation error — the same result for every network
oracle and clock, i.e. before any server is contacted. -/
theorem C9_invalid_input_rejected :
    ∀ (domain : String) (net net' : NetOracle) (now now' : DateTime),
      (goToLowerL (goTrimSpaceL domain.toList) = [] ∨
        '.' ∉ goToLowerL (goTrimSpaceL domain.toList)) →
      getWhoisInfo net now domain =
        (none, some (.simpleErr
          (if goToLowerL (goTrimSpaceL domain.toList) = [] then "domain cannot be empty"
           else "invalid domain format: " ++ strOf (goToLowerL (goTrimSpaceL domain.toList))))) ∧
      getWhoisInfo net now domain = getWhoisInfo net' now' domain := by
  intro domain net net' now now' h
  set d := goToLowerL (goTrimSpaceL domain.toList) with hd
  have key : ∀ (n : NetOracle) (t : DateTime),
      getWhoisInfo n t domain =
        (none, some (.simpleErr (if d = [] then "domain cannot be empty"
          else "invalid domain format: " ++ strOf d))) := by
    intro n t
    rcases h with h | h
    · rw [getWhoisInfo]
      simp only [← hd, h, if_pos rfl]
      simp [strOf]
    · have hne : ¬ strOf d = "" ∨ d = [] := by
        rcases (em (d = [])) with he | he
        · exact Or.inr he
        · refine Or.inl fun hc => he ?_
          simpa [strOf, String.ext_iff] using hc
      rcases hne with hne | he
      · rw [getWhoisInfo]
        simp only [← hd]
        rw [if_neg hne]
        have hsplit : charSplit '.' (strOf d).toList = [(strOf d).toList] := by
          apply charSplit_eq_single
          intro c hc hceq
          exact h (by simpa [strOf, hceq] using hc)
        rw [hsplit]
        have : ¬ d = [] := by
          intro hc; exact hne (by simp [strOf, hc])
        simp [strOf, if_neg this]
      · rw [getWhoisInfo]
        simp only [← hd, he, if_pos rfl]
        simp [strOf]
  exact ⟨key net now, (key net now).trans (key net' now').symm⟩

theorem C9_invalid_input_rejected_witness :
    getWhoisInfo (fun _ => .ok "Registrar: R") zeroDateTime "LocalHost" =
      (none, some (.simpleErr "invalid domain format: localhost")) ∧
    getWhoisInfo (fun _ => .ok "Registrar: R") zeroDateTime "LocalHost" =
      getWhoisInfo (fun _ => .error "refused") zeroDateTime "LocalHost" := by
  have h := C9_invalid_input_rejected "LocalHost" (fun _ => .ok "Registrar: R")
    (fun _ => .error "refused") zeroDateTime zeroDateTime (by decide)
  refine ⟨?_, h.2⟩
  rw [h.1]
  decide

theorem goTruncDiv_nonpos {a b : Int} (ha : a ≤ 0) : goTruncDiv a b ≤ 0 := by
  unfold goTruncDiv
  split
  · next h =>
    have : a = 0 := le_antisymm ha h
    subst this
    simp
  · have : (0 : Int) ≤ ((-a).toNat / b.toNat : Nat) := Int.ofNat_nonneg _
    omega

theorem goTruncDiv_neg {a b : Int} (hb : 0 < b) (ha : a ≤ -b) : goTruncDiv a b < 0 := by
  unfold goTruncDiv
  split
  · next h => omega
  · have h1 : b.toNat ≤ (-a).toNat := by omega
    have h2 : 0 < b.toNat := by omega
    have h3 : 1 ≤ (-a).toNat / b.toNat := (Nat.one_le_div_iff h2).mpr h1
    omega

/-- Claim C3 counterexample: a certificate whose `NotAfter` is one hour in
the past gets `DaysUntilExpiry = 0` — not negative, and not the floor
(which would be `-1`) — because the Go code truncates toward zero. -/
theorem C3_counterexample :
    expiredHourCert.notAfter < probeNow ∧
    (getSSLDerived probeNow "example.com" expiredHourCert).daysUntilExpiry = 0 ∧
    ¬ (getSSLDerived probeNow "example.com" expiredHourCert).daysUntilExpiry < 0 := by
  decide

/-- Claim C3 (amended): `DaysUntilExpiry` is the truncation toward zero of
(notAfter − now) in whole days, so it is negative only when `NotAfter` is
at least one full day in the past; `IsValid` holds exactly when
`DaysUntilExpiry > 0` and `now` is after `NotBefore`; a certificate with
`NotAfter` in the past yields `IsValid = false` and a non-positive (rather
than strictly negative) `DaysUntilExpiry`. -/
theorem C3_days_until_expiry_truncation :
    ∀ (now : Int) (domain : String) (cert : GoCert),
      (getSSLDerived now domain cert).daysUntilExpiry =
        goTruncDiv (cert.notAfter - now) nanosPerDay ∧
      ((getSSLDerived now domain cert).isValid = true ↔
        (0 < goTruncDiv (cert.notAfter - now) nanosPerDay ∧ cert.notBefore < now)) ∧
      (cert.notAfter < now →
        (getSSLDerived now domain cert).isValid = false ∧
        (getSSLDerived now domain cert).daysUntilExpiry ≤ 0) ∧
      (cert.notAfter ≤ now - nanosPerDay →
        (getSSLDerived now domain cert).daysUntilExpiry < 0) := by
  intro now domain cert
  refine ⟨rfl, ?_, fun hpast => ⟨?_, ?_⟩, fun hday => ?_⟩
  · simp [getSSLDerived, Bool.and_eq_true, decide_eq_true_iff, Int.lt_iff_add_one_le]
  · have h0 : goTruncDiv (cert.notAfter - now) nanosPerDay ≤ 0 :=
      goTruncDiv_nonpos (by omega)
    simp only [getSSLDerived]
    have : ¬ (0 : Int) < goTruncDiv (cert.notAfter - now) nanosPerDay := by omega
    simp [this]
  · exact goTruncDiv_nonpos (by omega)
  · exact goTruncDiv_neg (by decide) (by unfold nanosPerDay at *; omega)

theorem C3_days_until_expiry_truncation_witness :
    (getSSLDerived probeNow "example.com" expiredHourCert).isValid = false ∧
    (getSSLDerived probeNow "example.com" expiredHourCert).daysUntilExpiry ≤ 0 :=
  (C3_days_until_expiry_truncation probeNow "example.com" expiredHourCert).2.2.1
    (by decide)

theorem hasPrefix_star_iff (name : String) :
    goHasPrefix name "*." = true ↔ ∃ base : String, name = "*." ++ base := by
  rw [goHasPrefix, List.isPrefixOf_iff_prefix]
  constructor
  · rintro ⟨t, ht⟩
    refine ⟨String.mk t, ?_⟩
    cases name with
    | mk data =>
      apply congrArg String.mk
      simpa using ht.symm
  · rintro ⟨base, rfl⟩
    exact ⟨base.data, by simp [String.data_append]⟩

theorem goDropTwo_star (base : String) : goDropTwo ("*." ++ base) = base := by
  cases base with
  | mk data =>
    apply congrArg String.mk
    simp [String.data_append]

theorem wildcard_clause_iff (name domain : String) :
    (goHasPrefix name "*." = true ∧
      (goHasSuffix domain ("." ++ goDropTwo name) = true ∨
        goEqualFold domain (goDropTwo name) = true)) ↔
    ∃ base, name = "*." ++ base ∧
      (goEqualFold domain base = true ∨ goHasSuffix domain ("." ++ base) = true) := by
  constructor
  · rintro ⟨hp, hw⟩
    obtain ⟨base, rfl⟩ := (hasPrefix_star_iff name).mp hp
    rw [goDropTwo_star] at hw
    exact ⟨base, rfl, hw.symm⟩
  · rintro ⟨base, rfl, hw⟩
    exact ⟨(hasPrefix_star_iff _).mpr ⟨base, rfl⟩, by rw [goDropTwo_star]; exact hw.symm⟩

/-- Claim C4: `matchesDomain` returns true exactly under the specified
rule (common name or SAN equal to the domain case-insensitively, or a
`*.base` SAN with the domain equal to `base` or ending in `.base`), and
on a mismatch `validateCertificate` appends the domain-mismatch message. -/
theorem C4_domain_matching :
    ∀ (cert : GoCert) (domain : String) (now : Int),
      (matchesDomain cert domain = true ↔ MatchesDomainSpec cert domain) ∧
      (matchesDomain cert domain = false →
        "certificate does not match domain" ∈ validateCertificate now cert domain) := by
  intro cert domain now
  constructor
  · rw [matchesDomain, MatchesDomainSpec]
    simp only [Bool.or_eq_true, List.any_eq_true, Bool.and_eq_true]
    constructor
    · rintro (h | ⟨san, hmem, (h | h)⟩)
      · exact Or.inl h
      · exact Or.inr ⟨san, hmem, Or.inl h⟩
      · exact Or.inr ⟨san, hmem, Or.inr ((wildcard_clause_iff san domain).mp h)⟩
    · rintro (h | ⟨san, hmem, (h | h)⟩)
      · exact Or.inl h
      · exact Or.inr ⟨san, hmem, Or.inl h⟩
      · exact Or.inr ⟨san, hmem, Or.inr ((wildcard_clause_iff san domain).mpr h)⟩
  · intro hf
    simp [validateCertificate, hf]

theorem C4_domain_matching_witness :
    matchesDomain ⟨"other.com", ["*.example.com"], 0, 0, "", "", [], []⟩ "other.org" = false ∧
    "certificate does not match domain" ∈
      validateCertificate 0 ⟨"other.com", ["*.example.com"], 0, 0, "", "", [], []⟩ "other.org" :=
  ⟨by decide, (C4_domain_matching ⟨"other.com", ["*.example.com"], 0, 0, "", "", [], []⟩
    "other.org" 0).2 (by decide)⟩

theorem updRegistrar_whoisServer (line : List Char) (i : WhoisInfo) :
    (updRegistrar line i).whoisServer = i.whoisServer := by
  unfold updRegistrar; split <;> rfl

theorem updCreation_whoisServer (line : List Char) (i : WhoisInfo) :
    (updCreation line i).whoisServer = i.whoisServer := by
  unfold updCreation
  cases findValue creationToks line with
  | none => rfl
  | some v => by_cases h : isZeroTime (parseDateL v) <;> simp [h]

theorem updExpiration_whoisServer (line : List Char) (i : WhoisInfo) :
    (updExpiration line i).whoisServer = i.whoisServer := by
  unfold updExpiration
  cases findValue expirationToks line with
  | none => rfl
  | some v => by_cases h : isZeroTime (parseDateL v) <;> simp [h]

theorem updUpdated_whoisServer (line : List Char) (i : WhoisInfo) :
    (updUpdated line i).whoisServer = i.whoisServer := by
  unfold updUpdated
  cases findValue updatedToks line with
  | none => rfl
  | some v => by_cases h : isZeroTime (parseDateL v) <;> simp [h]

theorem updNameServer_whoisServer (line : List Char) (i : WhoisInfo) :
    (updNameServer line i).whoisServer = i.whoisServer := by
  unfold updNameServer; split <;> rfl

theorem updStatus_whoisServer (line : List Char) (i : WhoisInfo) :
    (updStatus line i).whoisServer = i.whoisServer := by
  unfold updStatus; split <;> rfl

theorem updRegistrantOrg_whoisServer (line : List Char) (i : WhoisInfo) :
    (updRegistrantOrg line i).whoisServer = i.whoisServer := by
  unfold updRegistrantOrg; split <;> rfl

theorem updRegistrantEmail_whoisServer (line : List Char) (i : WhoisInfo) :
    (updRegistrantEmail line i).whoisServer = i.whoisServer := by
  unfold updRegistrantEmail; split <;> rfl

theorem updAdminEmail_whoisServer (line : List Char) (i : WhoisInfo) :
    (updAdminEmail line i).whoisServer = i.whoisServer := by
  unfold updAdminEmail; split <;> rfl

theorem updTechEmail_whoisServer (line : List Char) (i : WhoisInfo) :
    (updTechEmail line i).whoisServer = i.whoisServer := by
  unfold updTechEmail; split <;> rfl

theorem processLine_whoisServer (i : WhoisInfo) (l : List Char) :
    (processLine i l).whoisServer = i.whoisServer := by
  rw [processLine]
  split
  · rfl
  · rw [updTechEmail_whoisServer, updAdminEmail_whoisServer,
      updRegistrantEmail_whoisServer, updRegistrantOrg_whoisServer,
      updStatus_whoisServer, updNameServer_whoisServer, updUpdated_whoisServer,
      updExpiration_whoisServer, updCreation_whoisServer, updRegistrar_whoisServer]

theorem foldl_processLine_whoisServer (lines : List (List Char)) (i : WhoisInfo) :
    (lines.foldl processLine i).whoisServer = i.whoisServer := by
  induction lines generalizing i with
  | nil => rfl
  | cons l ls ih => rw [List.foldl_cons, ih, processLine_whoisServer]

theorem parseWhoisResponse_whoisServer (d r s : String) :
    (parseWhoisResponse d r s).whoisServer = s := by
  show ((charSplit '\n' r.toList).foldl processLine (initWhoisInfo d r s)).whoisServer = s
  rw [foldl_processLine_whoisServer]
  rfl

theorem queryLoop_skip (net : NetOracle) (now : DateTime) (domain : String)
    (rest : List String) :
    ∀ (pre : List String) (le : Option WhoisError),
      (∀ s ∈ pre, ∃ e, queryWhoisServer net now domain s = .error e) →
      ∃ le', queryLoop net now domain (pre ++ rest) le = queryLoop net now domain rest le' := by
  intro pre
  induction pre with
  | nil => exact fun le _ => ⟨le, rfl⟩
  | cons s ss ih =>
    intro le h
    obtain ⟨e, he⟩ := h s (List.mem_cons_self _ _)
    rw [List.cons_append, queryLoop, he]
    exact ih _ (fun x hx => h x (List.mem_cons_of_mem _ hx))

/-- Claim C1: the fallback loop tries the candidate servers strictly in
order — when every server before `srv` fails and `srv` yields a non-empty
response, the loop returns the record parsed from `srv`'s response (whose
`WhoisServer` field is `srv`) regardless of any later candidates or their
behaviour; and when every candidate fails, it returns exactly the error
of the last attempted server. -/
theorem C1_fallback_first_success_last_error :
    (∀ (net : NetOracle) (now : DateTime) (domain : String)
        (pre post : List String) (srv rawData : String),
      (∀ s ∈ pre, ∃ e, queryWhoisServer net now domain s = .error e) →
      net srv = .ok rawData → ¬ rawData = "" →
      ∀ le, queryLoop net now domain (pre ++ srv :: post) le =
        (some {parseWhoisResponse domain rawData srv with queryTime := now}, none) ∧
        ({parseWhoisResponse domain rawData srv with
          queryTime := now} : WhoisInfo).whoisServer = srv) ∧
    (∀ (net : NetOracle) (now : DateTime) (domain : String)
        (init : List String) (last elast : String),
      (∀ s ∈ init, ∃ e, queryWhoisServer net now domain s = .error e) →
      queryWhoisServer net now domain last = .error elast →
      queryLoop net now domain (init ++ [last]) none =
        (none, some (.whoisErr ⟨domain, elast, last⟩))) := by
  constructor
  · intro net now domain pre post srv rawData hpre hok hne le
    obtain ⟨le', hskip⟩ := queryLoop_skip net now domain (srv :: post) pre le hpre
    have hq : queryWhoisServer net now domain srv =
        .ok {parseWhoisResponse domain rawData srv with queryTime := now} := by
      rw [queryWhoisServer, hok]
      exact if_neg hne
    rw [hskip, queryLoop, hq]
    exact ⟨rfl, parseWhoisResponse_whoisServer domain rawData srv⟩
  · intro net now domain init last elast hinit hlast
    obtain ⟨le', hskip⟩ := queryLoop_skip net now domain [last] init none hinit
    rw [hskip, queryLoop, hlast]
    rfl

theorem C1_fallback_first_success_last_error_witness :
    queryLoop (fun s => if s = "b" then .ok "Registrar: R" else .error "refused")
      zeroDateTime "example.com" ["a", "b", "c"] none =
      (some {parseWhoisResponse "example.com" "Registrar: R" "b" with
        queryTime := zeroDateTime}, none) ∧
    queryLoop (fun _ => .error "refused") zeroDateTime "example.com" ["a", "b"] none =
      (none, some (.whoisErr ⟨"example.com", "refused", "b"⟩)) := by
  constructor
  · exact ((C1_fallback_first_success_last_error.1
      (fun s => if s = "b" then .ok "Registrar: R" else .error "refused")
      zeroDateTime "example.com" ["a"] ["c"] "b" "Registrar: R"
      (by intro s hs; simp at hs; subst hs; exact ⟨"refused", rfl⟩)
      rfl (by decide)) none).1
  · exact C1_fallback_first_success_last_error.2
      (fun _ => .error "refused") zeroDateTime "example.com" ["a"] "b" "refused"
      (by intro s hs; simp at hs; subst hs; exact ⟨"refused", rfl⟩)
      rfl

/-- Claim C6: an input matching none of the supported layouts makes
`parseDate` return the zero/absent value (never an error and never a real
date), and the corresponding WHOIS record date fields then stay at the
zero value. -/
theorem C6_unparseable_dates_absent :
    (∀ s : String,
      (∀ f ∈ whoisDateFormats, goTimeParse f (goTrimSpaceL s.toList) = none) →
      parseDate s = zeroDateTime) ∧
    parseDate "not a date" = zeroDateTime ∧
    ((parseWhoisResponse "example.com"
        "Creation Date: not a date\nExpiry Date: tomorrow\nLast Updated: unknown"
        "srv").creationDate = zeroDateTime ∧
     (parseWhoisResponse "example.com"
        "Creation Date: not a date\nExpiry Date: tomorrow\nLast Updated: unknown"
        "srv").expirationDate = zeroDateTime ∧
     (parseWhoisResponse "example.com"
        "Creation Date: not a date\nExpiry Date: tomorrow\nLast Updated: unknown"
        "srv").updatedDate = zeroDateTime) := by
  refine ⟨fun s h => ?_, by decide, by decide, by decide, by decide⟩
  rw [parseDate, parseDateL, List.findSome?_eq_none_iff.mpr h]
  rfl

theorem C6_unparseable_dates_absent_witness :
    parseDate "not a date" = zeroDateTime :=
  C6_unparseable_dates_absent.1 "not a date" (by decide)

theorem digitChar_isDigit {d : Nat} (h : d < 10) : goIsDigit (digitChar d) = true := by
  interval_cases d <;> decide

theorem digitVal_digitChar {d : Nat} (h : d < 10) : digitVal (digitChar d) = d := by
  interval_cases d <;> decide

theorem goIsSpace_digitChar {d : Nat} (h : d < 10) : goIsSpace (digitChar d) = false := by
  interval_cases d <;> decide

theorem readDigitsAcc_digit {d : Nat} (h : d < 10) (k acc : Nat) (cs : List Char) :
    readDigitsAcc (k + 1) acc (digitChar d :: cs) = readDigitsAcc k (acc * 10 + d) cs := by
  rw [readDigitsAcc, if_pos (digitChar_isDigit h), digitVal_digitChar h]

theorem readDigitsAcc_nondigit {c : Char} (hc : goIsDigit c = false) (k acc : Nat)
    (cs : List Char) : readDigitsAcc (k + 1) acc (c :: cs) = none := by
  rw [readDigitsAcc, if_neg (by simp [hc])]

theorem readFixed_pad2 {n : Nat} (h : n ≤ 99) (r : List Char) :
    readFixed 2 (pad2 n ++ r) = some (n, r) := by
  have h1 : n / 10 < 10 := by omega
  have h2 : n % 10 < 10 := by omega
  rw [pad2, List.cons_append, List.cons_append, List.nil_append, readFixed,
    readDigitsAcc_digit h1, readDigitsAcc_digit h2, readDigitsAcc]
  simp only [Option.some.injEq, Prod.mk.injEq]
  exact ⟨by omega, trivial⟩

theorem readFixed_pad4 {n : Nat} (h : n ≤ 9999) (r : List Char) :
    readFixed 4 (pad4 n ++ r) = some (n, r) := by
  have h1 : n / 1000 < 10 := by omega
  have h2 : n / 100 % 10 < 10 := by omega
  have h3 : n / 10 % 10 < 10 := by omega
  have h4 : n % 10 < 10 := by omega
  rw [pad4, List.cons_append, List.cons_append, List.cons_append, List.cons_append,
    List.nil_append, readFixed, readDigitsAcc_digit h1, readDigitsAcc_digit h2,
    readDigitsAcc_digit h3, readDigitsAcc_digit h4, readDigitsAcc]
  simp only [Option.some.injEq, Prod.mk.injEq]
  exact ⟨by omega, trivial⟩

theorem readFixed_pad2_stop {n : Nat} {c : Char} (h : n ≤ 99) (hc : goIsDigit c = false)
    (k : Nat) (r : List Char) :
    readFixed (k + 3) (pad2 n ++ c :: r) = none := by
  have h1 : n / 10 < 10 := by omega
  have h2 : n % 10 < 10 := by omega
  rw [pad2, List.cons_append, List.cons_append, List.nil_append, readFixed]
  have e1 : k + 3 = (k + 2) + 1 := rfl
  have e2 : k + 2 = (k + 1) + 1 := rfl
  rw [e1, readDigitsAcc_digit h1, e2, readDigitsAcc_digit h2, readDigitsAcc_nondigit hc]

theorem readFixed_one_stop {d : Nat} {c : Char} (hd : d < 10) (hc : goIsDigit c = false)
    (k : Nat) (r : List Char) :
    readFixed (k + 2) (digitChar d :: c :: r) = none := by
  rw [readFixed]
  have e1 : k + 2 = (k + 1) + 1 := rfl
  rw [e1, readDigitsAcc_digit hd, readDigitsAcc_nondigit hc]

theorem readFixed_nondigit_stop {c : Char} (hc : goIsDigit c = false) (k : Nat)
    (r : List Char) : readFixed (k + 1) (c :: r) = none := by
  rw [readFixed, readDigitsAcc_nondigit hc]

theorem readFixed_pad2_exact {n : Nat} (h : n ≤ 99) : readFixed 2 (pad2 n) = some (n, []) := by
  have h2 := readFixed_pad2 h []
  rwa [List.append_nil] at h2

theorem readFixed_pad4_exact {n : Nat} (h : n ≤ 9999) : readFixed 4 (pad4 n) = some (n, []) := by
  have h2 := readFixed_pad4 h []
  rwa [List.append_nil] at h2

theorem readFlex_pad2 {n : Nat} (h : n ≤ 99) (r : List Char) :
    readFlex (pad2 n ++ r) = some (n, r) := by
  have h1 : n / 10 < 10 := by omega
  have h2 : n % 10 < 10 := by omega
  rw [pad2, List.cons_append, List.cons_append, List.nil_append, readFlex]
  simp only [digitChar_isDigit h1, digitChar_isDigit h2, digitVal_digitChar h1,
    digitVal_digitChar h2, if_pos]
  simp only [if_true, Option.some.injEq, Prod.mk.injEq]
  exact ⟨by omega, trivial⟩

theorem readFlex_single {d : Nat} {c : Char} (hd : d < 10) (hc : goIsDigit c = false)
    (r : List Char) : readFlex (digitChar d :: c :: r) = some (d, c :: r) := by
  rw [readFlex]
  simp [digitChar_isDigit hd, digitVal_digitChar hd, hc]

theorem stepTok_lit_cons (c : Char) (r : List Char) (st : PState) :
    stepTok (st, c :: r) (.lit [c]) = some (st, r) := by
  simp [stepTok, stripExact]

theorem stepTok_lit_ne {c c' : Char} (h : ¬ c' = c) (st : PState) (r : List Char) :
    stepTok (st, c' :: r) (.lit [c]) = none := by
  simp [stepTok, stripExact, h]

theorem stepTok_lit_nil (c : Char) (st : PState) :
    stepTok (st, []) (.lit [c]) = none := rfl

theorem dropWhile_eq_self_of_head {p : Char → Bool} :
    ∀ {l : List Char}, (∀ c, l.head? = some c → p c = false) → l.dropWhile p = l
  | [], _ => rfl
  | c :: l, h => by
    rw [List.dropWhile_cons, if_neg]
    simp [h c rfl]

theorem goTrimSpaceL_eq_self {cs : List Char}
    (h1 : ∀ c, cs.head? = some c → goIsSpace c = false)
    (h2 : ∀ c, cs.getLast? = some c → goIsSpace c = false) :
    goTrimSpaceL cs = cs := by
  rw [goTrimSpaceL, dropWhile_eq_self_of_head h1, dropWhile_eq_self_of_head
    (fun c hc => h2 c (by rwa [List.head?_reverse] at hc)), List.reverse_reverse]

theorem asciiLower_digit {c : Char} (hc : goIsDigit c = true) : asciiLower c = c := by
  rw [goIsDigit] at hc
  simp only [Bool.and_eq_true, decide_eq_true_eq] at hc
  rw [asciiLower, if_neg]
  omega

theorem toNat_le_of_digit {c : Char} (hc : goIsDigit c = true) : c.toNat ≤ 57 := by
  rw [goIsDigit] at hc
  simp only [Bool.and_eq_true, decide_eq_true_eq] at hc
  omega

theorem stripCI_low_none {c p : Char} {ps cs : List Char}
    (hl : asciiLower c = c) (hle : c.toNat ≤ 57) (hp : 97 ≤ (asciiLower p).toNat) :
    stripCI (p :: ps) (c :: cs) = none := by
  rw [stripCI, if_neg]
  intro h
  rw [hl] at h
  have := congrArg Char.toNat h
  omega

theorem monthLookup_low_none {c : Char} (hl : asciiLower c = c) (hle : c.toNat ≤ 57)
    (r : List Char) :
    ∀ (tbl : List (List Char)) (i : Nat),
      (∀ name ∈ tbl, name ≠ [] ∧ 97 ≤ (asciiLower (name.headD 'A')).toNat) →
      monthLookup i tbl (c :: r) = none
  | [], _, _ => rfl
  | name :: ns, i, h => by
    obtain ⟨hne, hp⟩ := h name (List.mem_cons_self _ _)
    cases name with
    | nil => exact absurd rfl hne
    | cons p ps =>
      rw [monthLookup, stripCI_low_none hl hle (by simpa using hp)]
      exact monthLookup_low_none hl hle r ns (i + 1)
        (fun x hx => h x (List.mem_cons_of_mem _ hx))

theorem monthLookup_short_digit {c : Char} (hc : goIsDigit c = true) (i : Nat)
    (r : List Char) : monthLookup i shortMonthNames (c :: r) = none :=
  monthLookup_low_none (asciiLower_digit hc) (toNat_le_of_digit hc) r
    shortMonthNames i (by decide)

theorem monthLookup_long_digit {c : Char} (hc : goIsDigit c = true) (i : Nat)
    (r : List Char) : monthLookup i longMonthNames (c :: r) = none :=
  monthLookup_low_none (asciiLower_digit hc) (toNat_le_of_digit hc) r
    longMonthNames i (by decide)

theorem monthLookup_short_fmt {m : Nat} (h1 : 1 ≤ m) (h2 : m ≤ 12) (r : List Char) :
    monthLookup 1 shortMonthNames (shortMonthNames.getD (m - 1) [] ++ r) = some (m, r) := by
  interval_cases m <;> simp +decide [shortMonthNames, monthLookup, stripCI]

theorem monthLookup_long_fmt {m : Nat} (h1 : 1 ≤ m) (h2 : m ≤ 12) (r : List Char) :
    monthLookup 1 longMonthNames (longMonthNames.getD (m - 1) [] ++ r) = some (m, r) := by
  interval_cases m <;> simp +decide [longMonthNames, monthLookup, stripCI]

theorem readFrac_nil (n : Nat) : readFrac n [] = (n, []) := rfl

theorem readFrac_single (n : Nat) (c : Char) : readFrac n [c] = (n, [c]) := rfl

theorem readFrac_no_sep {p : Char} (hp : ¬ p = '.' ∧ ¬ p = ',') (n : Nat)
    (c : Char) (r : List Char) : readFrac n (p :: c :: r) = (n, p :: c :: r) := by
  rw [readFrac, if_neg]
  rintro ⟨h | h, -⟩ <;> simp_all

theorem readFrac_zoneISO (n : Nat) (off : Int) :
    readFrac n (fmtZoneISO off) = (n, fmtZoneISO off) := by
  rw [fmtZoneISO]
  by_cases h0 : off = 0
  · rw [if_pos h0]
    rfl
  · rw [if_neg h0, pad2, List.cons_append, List.cons_append, List.nil_append]
    by_cases hneg : off < 0
    · rw [if_pos hneg]
      exact readFrac_no_sep (by decide) n _ _
    · rw [if_neg hneg]
      exact readFrac_no_sep (by decide) n _ _

theorem stepTok_zone_fmt {off : Int} (h : off.natAbs ≤ 1439) (st : PState) :
    stepTok (st, fmtZoneISO off) .zoneISO = some ({st with offMin := off}, []) := by
  by_cases h0 : off = 0
  · subst h0
    rfl
  · rw [fmtZoneISO, if_neg h0]
    have hh : off.natAbs / 60 ≤ 99 := by omega
    have hm : off.natAbs % 60 ≤ 99 := by omega
    by_cases hneg : off < 0
    · rw [if_pos hneg, stepTok]
      try dsimp only
      rw [if_neg (by decide), if_pos (Or.inr rfl), readFixed_pad2 hh]
      try dsimp only
      rw [if_pos rfl, readFixed_pad2_exact hm]
      try dsimp only
      have : (if ('-' : Char) = '-' then (-1 : Int) else 1) *
          ((off.natAbs / 60 : Nat) * 60 + (off.natAbs % 60 : Nat)) = off := by
        rw [if_pos rfl]
        omega
      rw [this]
    · rw [if_neg hneg, stepTok]
      try dsimp only
      rw [if_neg (by decide), if_pos (Or.inl rfl), readFixed_pad2 hh]
      try dsimp only
      rw [if_pos rfl, readFixed_pad2_exact hm]
      try dsimp only
      have : (if ('+' : Char) = '-' then (-1 : Int) else 1) *
          ((off.natAbs / 60 : Nat) * 60 + (off.natAbs % 60 : Nat)) = off := by
        rw [if_neg (by decide)]
        omega
      rw [this]

theorem runToks_append (ts1 ts2 : List LTok) (sc : PState × List Char) :
    runToks (ts1 ++ ts2) sc = (runToks ts1 sc).bind (runToks ts2) := by
  induction ts1 generalizing sc with
  | nil => simp [runToks]
  | cons t ts ih =>
    rw [List.cons_append, runToks, runToks]
    cases stepTok sc t <;> simp [ih]

theorem daysInMonth_le (y m : Nat) : daysInMonth y m ≤ 31 := by
  rw [daysInMonth]
  split_ifs <;> omega

theorem runToks_dateOnly {t : DateTime} (hy : t.year ≤ 9999) (hm : t.month ≤ 99)
    (hd : t.day ≤ 99) (st : PState) (r : List Char) :
    runToks layoutDateOnly (st, fmtDatePart t ++ r) =
      some ({st with year := t.year, month := t.month, day := t.day}, r) := by
  rw [layoutDateOnly, fmtDatePart]
  simp only [List.append_assoc, List.cons_append]
  rw [runToks, stepTok]
  simp only [Option.some_bind, Option.map_some', reduceIte]
  rw [readFixed_pad4 hy]
  simp only [Option.some_bind, Option.map_some', reduceIte]
  rw [runToks, stepTok_lit_cons]
  simp only [Option.some_bind, Option.map_some', reduceIte]
  rw [runToks, stepTok]
  simp only [Option.some_bind, Option.map_some', reduceIte]
  rw [readFixed_pad2 hm]
  simp only [Option.some_bind, Option.map_some', reduceIte]
  rw [runToks, stepTok_lit_cons]
  simp only [Option.some_bind, Option.map_some', reduceIte]
  rw [runToks, stepTok]
  simp only [Option.some_bind, Option.map_some', reduceIte]
  rw [readFixed_pad2 hd]
  simp only [Option.some_bind, Option.map_some', reduceIte]
  rw [runToks]

theorem runToks_time {t : DateTime} (hh : t.hour ≤ 99) (hmi : t.minute ≤ 99)
    (hs : t.second ≤ 99) (st : PState) (r : List Char)
    (hfr : readFrac st.nanos r = (st.nanos, r)) :
    runToks [.hourFlex, .lit [':'], .minuteZero, .lit [':'], .secondZero]
      (st, fmtTimePart t ++ r) =
      some ({st with hour := t.hour, minute := t.minute, second := t.second}, r) := by
  rw [fmtTimePart]
  simp only [List.append_assoc, List.cons_append]
  rw [runToks, stepTok]
  simp only [Option.some_bind, Option.map_some', reduceIte]
  rw [readFlex_pad2 hh]
  simp only [Option.some_bind, Option.map_some', reduceIte]
  rw [runToks, stepTok_lit_cons]
  simp only [Option.some_bind, Option.map_some', reduceIte]
  rw [runToks, stepTok]
  simp only [Option.some_bind, Option.map_some', reduceIte]
  rw [readFixed_pad2 hmi]
  simp only [Option.some_bind, Option.map_some', reduceIte]
  rw [runToks, stepTok_lit_cons]
  simp only [Option.some_bind, Option.map_some', reduceIte]
  rw [runToks, stepTok]
  simp only [Option.some_bind, Option.map_some', reduceIte]
  rw [readFixed_pad2 hs]
  simp only [Option.some_bind, Option.map_some', reduceIte]
  rw [hfr]
  rw [runToks]

theorem goTimeParse_fmtRFC3339 {t : DateTime} (h : RepresentableFields t)
    (hoff : t.offMin.natAbs ≤ 1439) :
    goTimeParse layoutRFC3339 (formatRFC3339 t) = some t := by
  obtain ⟨hy, hm1, hm2, hd1, hd2, hh, hmi, hs, hn⟩ := h
  rw [goTimeParse,
    show layoutRFC3339 = layoutDateOnly ++
      ([.lit ['T']] ++ ([.hourFlex, .lit [':'], .minuteZero, .lit [':'], .secondZero] ++
        [.zoneISO])) from rfl,
    show formatRFC3339 t =
      fmtDatePart t ++ ('T' :: (fmtTimePart t ++ fmtZoneISO t.offMin)) from rfl]
  rw [runToks_append, runToks_dateOnly hy (by omega) (by have := daysInMonth_le t.year t.month; omega)]
  simp only [Option.some_bind, Option.map_some', reduceIte]
  rw [runToks_append, runToks, stepTok_lit_cons]
  simp only [Option.some_bind, Option.map_some', reduceIte]
  rw [runToks]
  simp only [Option.some_bind, Option.map_some', reduceIte]
  rw [runToks_append, runToks_time (by omega) (by omega) (by omega) _ _
    (readFrac_zoneISO _ _)]
  simp only [Option.some_bind, Option.map_some', reduceIte]
  rw [runToks, stepTok_zone_fmt hoff]
  simp only [Option.some_bind, Option.map_some', reduceIte]
  rw [runToks]
  simp only [Option.some_bind, Option.map_some', reduceIte]
  rw [finishParse]
  dsimp only [initPState]
  rw [if_pos ⟨rfl, hm1, hm2, hd1, hd2, hh, hmi, hs⟩]
  obtain ⟨y, mo, d, hr, mi, s, ns, off⟩ := t
  simp only at hn
  rw [hn]

theorem goTimeParse_fmtRFC3339_onZ {t : DateTime} (h : RepresentableFields t)
    (hz : t.offMin = 0) :
    goTimeParse layoutRFC3339 (formatRFC3339Z t) = some t := by
  have he : formatRFC3339Z t = formatRFC3339 t := by
    rw [formatRFC3339, formatRFC3339Z, fmtZoneISO, hz, if_pos rfl]
  rw [he]
  exact goTimeParse_fmtRFC3339 h (by rw [hz]; decide)

theorem goTimeParse_fmtDateTimeSp {t : DateTime} (h : RepresentableFields t)
    (hz : t.offMin = 0) :
    goTimeParse layoutDateTimeSp (formatDateTimeSp t) = some t := by
  obtain ⟨hy, hm1, hm2, hd1, hd2, hh, hmi, hs, hn⟩ := h
  rw [goTimeParse,
    show layoutDateTimeSp = layoutDateOnly ++
      ([.lit [' ']] ++ [.hourFlex, .lit [':'], .minuteZero, .lit [':'], .secondZero])
      from rfl,
    show formatDateTimeSp t = fmtDatePart t ++ (' ' :: (fmtTimePart t ++ [])) from by
      rw [formatDateTimeSp, List.append_nil]]
  rw [runToks_append, runToks_dateOnly hy (by omega) (by have := daysInMonth_le t.year t.month; omega)]
  simp only [Option.some_bind, Option.map_some', reduceIte]
  rw [runToks_append, runToks, stepTok_lit_cons]
  simp only [Option.some_bind, Option.map_some', reduceIte]
  rw [runToks]
  simp only [Option.some_bind, Option.map_some', reduceIte]
  rw [runToks_time (by omega) (by omega) (by omega) _ _ (readFrac_nil _)]
  simp only [Option.some_bind, Option.map_some', reduceIte]
  rw [finishParse]
  dsimp only [initPState]
  rw [if_pos ⟨rfl, hm1, hm2, hd1, hd2, hh, hmi, hs⟩]
  obtain ⟨y, mo, d, hr, mi, s, ns, off⟩ := t
  simp only at hn hz
  rw [hn, hz]

theorem goTimeParse_fmtDateOnly {t : DateTime} (h : RepresentableFields t)
    (hz : t.offMin = 0) (h0 : t.hour = 0 ∧ t.minute = 0 ∧ t.second = 0) :
    goTimeParse layoutDateOnly (formatDateOnly t) = some t := by
  obtain ⟨hy, hm1, hm2, hd1, hd2, hh, hmi, hs, hn⟩ := h
  rw [goTimeParse,
    show formatDateOnly t = fmtDatePart t ++ [] from (List.append_nil _).symm]
  rw [runToks_dateOnly hy (by omega) (by have := daysInMonth_le t.year t.month; omega)]
  simp only [Option.some_bind, Option.map_some', reduceIte]
  rw [finishParse]
  dsimp only [initPState]
  rw [if_pos ⟨rfl, hm1, hm2, hd1, hd2, by omega, by omega, by omega⟩]
  obtain ⟨y, mo, d, hr, mi, s, ns, off⟩ := t
  obtain ⟨e1, e2, e3⟩ := h0
  simp only at hn hz e1 e2 e3
  rw [hn, hz, e1, e2, e3]

theorem goTimeParse_fmtDayMonYear {t : DateTime} (h : RepresentableFields t)
    (hz : t.offMin = 0) (h0 : t.hour = 0 ∧ t.minute = 0 ∧ t.second = 0) :
    goTimeParse layoutDayMonYear (formatDayMonYear t) = some t := by
  obtain ⟨hy, hm1, hm2, hd1, hd2, hh, hmi, hs, hn⟩ := h
  rw [goTimeParse, layoutDayMonYear,
    show formatDayMonYear t =
      pad2 t.day ++ ('-' :: ((shortMonthNames.getD (t.month - 1) []) ++
        ('-' :: (pad4 t.year ++ [])))) from by
      simp [formatDayMonYear, List.append_assoc, List.cons_append]]
  rw [runToks, stepTok]
  simp only [Option.some_bind, Option.map_some', reduceIte]
  rw [readFixed_pad2 (by have := daysInMonth_le t.year t.month; omega)]
  simp only [Option.some_bind, Option.map_some', reduceIte]
  rw [runToks, stepTok_lit_cons]
  simp only [Option.some_bind, Option.map_some', reduceIte]
  rw [runToks, stepTok]
  simp only [Option.some_bind, Option.map_some', reduceIte]
  rw [monthLookup_short_fmt hm1 hm2]
  simp only [Option.some_bind, Option.map_some', reduceIte]
  rw [runToks, stepTok_lit_cons]
  simp only [Option.some_bind, Option.map_some', reduceIte]
  rw [runToks, stepTok]
  simp only [Option.some_bind, Option.map_some', reduceIte]
  rw [readFixed_pad4 hy]
  simp only [Option.some_bind, Option.map_some', reduceIte]
  rw [runToks]
  simp only [Option.some_bind, Option.map_some', reduceIte]
  rw [finishParse]
  dsimp only [initPState]
  rw [if_pos ⟨rfl, hm1, hm2, hd1, hd2, by omega, by omega, by omega⟩]
  obtain ⟨y, mo, d, hr, mi, s, ns, off⟩ := t
  obtain ⟨e1, e2, e3⟩ := h0
  simp only at hn hz e1 e2 e3
  rw [hn, hz, e1, e2, e3]

theorem goTimeParse_fmtMonthDayYear {t : DateTime} (h : RepresentableFields t)
    (hz : t.offMin = 0) (h0 : t.hour = 0 ∧ t.minute = 0 ∧ t.second = 0) :
    goTimeParse layoutMonthDayYear (formatMonthDayYear t) = some t := by
  obtain ⟨hy, hm1, hm2, hd1, hd2, hh, hmi, hs, hn⟩ := h
  rw [goTimeParse, layoutMonthDayYear,
    show formatMonthDayYear t =
      (longMonthNames.getD (t.month - 1) []) ++ (' ' :: (pad2 t.day ++
        (' ' :: (pad4 t.year ++ [])))) from by
      simp [formatMonthDayYear, List.append_assoc, List.cons_append]]
  rw [runToks, stepTok]
  simp only [Option.some_bind, Option.map_some', reduceIte]
  rw [monthLookup_long_fmt hm1 hm2]
  simp only [Option.some_bind, Option.map_some', reduceIte]
  rw [runToks, stepTok_lit_cons]
  simp only [Option.some_bind, Option.map_some', reduceIte]
  rw [runToks, stepTok]
  simp only [Option.some_bind, Option.map_some', reduceIte]
  rw [readFixed_pad2 (by have := daysInMonth_le t.year t.month; omega)]
  simp only [Option.some_bind, Option.map_some', reduceIte]
  rw [runToks, stepTok_lit_cons]
  simp only [Option.some_bind, Option.map_some', reduceIte]
  rw [runToks, stepTok]
  simp only [Option.some_bind, Option.map_some', reduceIte]
  rw [readFixed_pad4 hy]
  simp only [Option.some_bind, Option.map_some', reduceIte]
  rw [runToks]
  simp only [Option.some_bind, Option.map_some', reduceIte]
  rw [finishParse]
  dsimp only [initPState]
  rw [if_pos ⟨rfl, hm1, hm2, hd1, hd2, by omega, by omega, by omega⟩]
  obtain ⟨y, mo, d, hr, mi, s, ns, off⟩ := t
  obtain ⟨e1, e2, e3⟩ := h0
  simp only at hn hz e1 e2 e3
  rw [hn, hz, e1, e2, e3]

theorem goTimeParse_fmtDayFlexMonYear {t : DateTime} (h : RepresentableFields t)
    (hz : t.offMin = 0) (h0 : t.hour = 0 ∧ t.minute = 0 ∧ t.second = 0)
    (hlt : t.day < 10) :
    goTimeParse layoutDayFlexMonYear (formatDayFlexMonYear t) = some t := by
  obtain ⟨hy, hm1, hm2, hd1, hd2, hh, hmi, hs, hn⟩ := h
  rw [goTimeParse, layoutDayFlexMonYear,
    show formatDayFlexMonYear t =
      digitChar t.day :: ('-' :: ((shortMonthNames.getD (t.month - 1) []) ++
        ('-' :: (pad4 t.year ++ [])))) from by
      simp [formatDayFlexMonYear, fmtNoPad2, if_pos hlt, List.append_assoc,
        List.cons_append]]
  rw [runToks, stepTok]
  simp only [Option.some_bind, Option.map_some', reduceIte]
  rw [readFlex_single hlt (by decide)]
  simp only [Option.some_bind, Option.map_some', reduceIte]
  rw [runToks, stepTok_lit_cons]
  simp only [Option.some_bind, Option.map_some', reduceIte]
  rw [runToks, stepTok]
  simp only [Option.some_bind, Option.map_some', reduceIte]
  rw [monthLookup_short_fmt hm1 hm2]
  simp only [Option.some_bind, Option.map_some', reduceIte]
  rw [runToks, stepTok_lit_cons]
  simp only [Option.some_bind, Option.map_some', reduceIte]
  rw [runToks, stepTok]
  simp only [Option.some_bind, Option.map_some', reduceIte]
  rw [readFixed_pad4 hy]
  simp only [Option.some_bind, Option.map_some', reduceIte]
  rw [runToks]
  simp only [Option.some_bind, Option.map_some', reduceIte]
  rw [finishParse]
  dsimp only [initPState]
  rw [if_pos ⟨rfl, hm1, hm2, hd1, hd2, by omega, by omega, by omega⟩]
  obtain ⟨y, mo, d, hr, mi, s, ns, off⟩ := t
  obtain ⟨e1, e2, e3⟩ := h0
  simp only at hn hz e1 e2 e3
  rw [hn, hz, e1, e2, e3]

theorem formatDayFlexMonYear_ge10 {t : DateTime} (h : 10 ≤ t.day) :
    formatDayFlexMonYear t = formatDayMonYear t := by
  rw [formatDayFlexMonYear, formatDayMonYear, fmtNoPad2, if_neg (by omega)]

theorem goTimeParse_fmtSlashDate {t : DateTime} (h : RepresentableFields t)
    (hz : t.offMin = 0) (h0 : t.hour = 0 ∧ t.minute = 0 ∧ t.second = 0) :
    goTimeParse layoutSlashDate (formatSlashDate t) = some t := by
  obtain ⟨hy, hm1, hm2, hd1, hd2, hh, hmi, hs, hn⟩ := h
  rw [goTimeParse, layoutSlashDate,
    show formatSlashDate t =
      pad4 t.year ++ ('/' :: (pad2 t.month ++ ('/' :: (pad2 t.day ++ [])))) from by
      simp [formatSlashDate, List.append_assoc, List.cons_append]]
  rw [runToks, stepTok]
  simp only [Option.some_bind, Option.map_some', reduceIte]
  rw [readFixed_pad4 hy]
  simp only [Option.some_bind, Option.map_some', reduceIte]
  rw [runToks, stepTok_lit_cons]
  simp only [Option.some_bind, Option.map_some', reduceIte]
  rw [runToks, stepTok]
  simp only [Option.some_bind, Option.map_some', reduceIte]
  rw [readFixed_pad2 (by omega)]
  simp only [Option.some_bind, Option.map_some', reduceIte]
  rw [runToks, stepTok_lit_cons]
  simp only [Option.some_bind, Option.map_some', reduceIte]
  rw [runToks, stepTok]
  simp only [Option.some_bind, Option.map_some', reduceIte]
  rw [readFixed_pad2 (by have := daysInMonth_le t.year t.month; omega)]
  simp only [Option.some_bind, Option.map_some', reduceIte]
  rw [runToks]
  simp only [Option.some_bind, Option.map_some', reduceIte]
  rw [finishParse]
  dsimp only [initPState]
  rw [if_pos ⟨rfl, hm1, hm2, hd1, hd2, by omega, by omega, by omega⟩]
  obtain ⟨y, mo, d, hr, mi, s, ns, off⟩ := t
  obtain ⟨e1, e2, e3⟩ := h0
  simp only at hn hz e1 e2 e3
  rw [hn, hz, e1, e2, e3]

theorem goTimeParse_dateThenLit_none {t : DateTime} (hy : t.year ≤ 9999)
    (hm : t.month ≤ 99) (hd : t.day ≤ 99) {lt c : Char} (hne : ¬ c = lt)
    (rest2 : List LTok) (r : List Char) :
    goTimeParse (layoutDateOnly ++ (.lit [lt] :: rest2)) (fmtDatePart t ++ c :: r) =
      none := by
  rw [goTimeParse, runToks_append, runToks_dateOnly hy hm hd]
  simp only [Option.some_bind, Option.map_some']
  rw [runToks, stepTok_lit_ne hne]
  simp only [Option.none_bind, Option.map_none']

theorem goTimeParse_dateThenLit_nil_none {t : DateTime} (hy : t.year ≤ 9999)
    (hm : t.month ≤ 99) (hd : t.day ≤ 99) (lt : Char) (rest2 : List LTok) :
    goTimeParse (layoutDateOnly ++ (.lit [lt] :: rest2)) (fmtDatePart t) = none := by
  rw [goTimeParse, ← List.append_nil (fmtDatePart t), runToks_append,
    runToks_dateOnly hy hm hd]
  simp only [Option.some_bind, Option.map_some']
  rw [runToks, stepTok_lit_nil]
  simp only [Option.none_bind, Option.map_none']

theorem goTimeParse_yearDash_slash_none {n : Nat} (h : n ≤ 9999)
    (rest2 : List LTok) (r : List Char) :
    goTimeParse (.year4 :: .lit ['-'] :: rest2) (pad4 n ++ '/' :: r) = none := by
  rw [goTimeParse, runToks, stepTok]
  simp only [Option.some_bind, Option.map_some']
  rw [readFixed_pad4 h]
  simp only [Option.some_bind, Option.map_some']
  rw [runToks, stepTok_lit_ne (by decide)]
  simp only [Option.none_bind, Option.map_none']

theorem goTimeParse_year4_pad2dash_none {n : Nat} (h : n ≤ 99)
    (rest2 : List LTok) (r : List Char) :
    goTimeParse (.year4 :: rest2) (pad2 n ++ '-' :: r) = none := by
  rw [goTimeParse, runToks, stepTok]
  simp only [Option.some_bind, Option.map_some']
  rw [show (4 : Nat) = 1 + 3 from rfl, readFixed_pad2_stop h (by decide)]
  simp only [Option.none_bind, Option.map_none']

theorem goTimeParse_year4_digitDash_none {d : Nat} (h : d < 10)
    (rest2 : List LTok) (r : List Char) :
    goTimeParse (.year4 :: rest2) (digitChar d :: '-' :: r) = none := by
  rw [goTimeParse, runToks, stepTok]
  simp only [Option.some_bind, Option.map_some']
  rw [show (4 : Nat) = 2 + 2 from rfl, readFixed_one_stop h (by decide)]
  simp only [Option.none_bind, Option.map_none']

theorem goTimeParse_year4_nondigit_none {c : Char} (hc : goIsDigit c = false)
    (rest2 : List LTok) (r : List Char) :
    goTimeParse (.year4 :: rest2) (c :: r) = none := by
  rw [goTimeParse, runToks, stepTok]
  simp only [Option.some_bind, Option.map_some']
  rw [show (4 : Nat) = 3 + 1 from rfl, readFixed_nondigit_stop hc]
  simp only [Option.none_bind, Option.map_none']

theorem goTimeParse_day2_nondigit_none {c : Char} (hc : goIsDigit c = false)
    (rest2 : List LTok) (r : List Char) :
    goTimeParse (.dayZero :: rest2) (c :: r) = none := by
  rw [goTimeParse, runToks, stepTok]
  simp only [Option.some_bind, Option.map_some']
  rw [show (2 : Nat) = 1 + 1 from rfl, readFixed_nondigit_stop hc]
  simp only [Option.none_bind, Option.map_none']

theorem goTimeParse_day2_digitDash_none {d : Nat} (h : d < 10)
    (rest2 : List LTok) (r : List Char) :
    goTimeParse (.dayZero :: rest2) (digitChar d :: '-' :: r) = none := by
  rw [goTimeParse, runToks, stepTok]
  simp only [Option.some_bind, Option.map_some']
  rw [show (2 : Nat) = 0 + 2 from rfl, readFixed_one_stop h (by decide)]
  simp only [Option.none_bind, Option.map_none']

theorem readFixed2_of_pad4 {n : Nat} (h : n ≤ 9999) (r : List Char) :
    ∃ v, readFixed 2 (pad4 n ++ r) =
      some (v, digitChar (n / 10 % 10) :: digitChar (n % 10) :: r) := by
  have h1 : n / 1000 < 10 := by omega
  have h2 : n / 100 % 10 < 10 := by omega
  refine ⟨(0 * 10 + n / 1000) * 10 + n / 100 % 10, ?_⟩
  rw [pad4, List.cons_append, List.cons_append, List.cons_append, List.cons_append,
    List.nil_append, readFixed, readDigitsAcc_digit h1, readDigitsAcc_digit h2,
    readDigitsAcc]

theorem readFlex_two_of_pad4 {n : Nat} (h : n ≤ 9999) (r : List Char) :
    ∃ v, readFlex (pad4 n ++ r) =
      some (v, digitChar (n / 10 % 10) :: digitChar (n % 10) :: r) := by
  have h1 : n / 1000 < 10 := by omega
  have h2 : n / 100 % 10 < 10 := by omega
  refine ⟨n / 1000 * 10 + n / 100 % 10, ?_⟩
  rw [pad4, List.cons_append, List.cons_append, List.cons_append, List.cons_append,
    List.nil_append, readFlex]
  simp [digitChar_isDigit h1, digitChar_isDigit h2, digitVal_digitChar h1,
    digitVal_digitChar h2]

theorem digitChar_ne_dash {d : Nat} (h : d < 10) : ¬ digitChar d = '-' := by
  interval_cases d <;> decide

theorem goTimeParse_day2_pad4dash_none {n : Nat} (h : n ≤ 9999)
    (rest2 : List LTok) (r : List Char) :
    goTimeParse (.dayZero :: .lit ['-'] :: rest2) (pad4 n ++ r) = none := by
  obtain ⟨v, hv⟩ := readFixed2_of_pad4 h r
  rw [goTimeParse, runToks, stepTok]
  simp only [Option.some_bind, Option.map_some']
  rw [hv]
  simp only [Option.some_bind, Option.map_some']
  rw [runToks, stepTok_lit_ne (digitChar_ne_dash (by omega))]
  simp only [Option.none_bind, Option.map_none']

theorem goTimeParse_dayFlex_pad4dash_none {n : Nat} (h : n ≤ 9999)
    (rest2 : List LTok) (r : List Char) :
    goTimeParse (.dayFlex :: .lit ['-'] :: rest2) (pad4 n ++ r) = none := by
  obtain ⟨v, hv⟩ := readFlex_two_of_pad4 h r
  rw [goTimeParse, runToks, stepTok]
  simp only [Option.some_bind, Option.map_some']
  rw [hv]
  simp only [Option.some_bind, Option.map_some']
  rw [runToks, stepTok_lit_ne (digitChar_ne_dash (by omega))]
  simp only [Option.none_bind, Option.map_none']

theorem goTimeParse_monthName_digit_none {c : Char} (hc : goIsDigit c = true)
    (long : Bool) (rest2 : List LTok) (r : List Char) :
    goTimeParse (.monthName long :: rest2) (c :: r) = none := by
  cases long with
  | false =>
    rw [goTimeParse, runToks, stepTok]
    simp only [Option.some_bind, Option.map_some']
    rw [monthLookup_short_digit hc]
    simp only [Option.none_bind, Option.map_none']
  | true =>
    rw [goTimeParse, runToks, stepTok]
    simp only [Option.some_bind, Option.map_some']
    rw [monthLookup_long_digit hc]
    simp only [Option.none_bind, Option.map_none']

theorem longName_head {m : Nat} (h1 : 1 ≤ m) (h2 : m ≤ 12) :
    ∃ p ps, longMonthNames.getD (m - 1) [] = p :: ps ∧ goIsDigit p = false ∧
      goIsSpace p = false := by
  interval_cases m <;> exact ⟨_, _, rfl, by decide, by decide⟩

theorem goTrimSpaceL_eq_self_rev {cs : List Char}
    (h1 : ∀ c, cs.head? = some c → goIsSpace c = false)
    (h2 : ∀ c, cs.reverse.head? = some c → goIsSpace c = false) :
    goTrimSpaceL cs = cs := by
  rw [goTrimSpaceL, dropWhile_eq_self_of_head h1, dropWhile_eq_self_of_head h2,
    List.reverse_reverse]

theorem trim_fmtRFC3339 {t : DateTime} (h : RepresentableFields t) :
    goTrimSpaceL (formatRFC3339 t) = formatRFC3339 t := by
  obtain ⟨hy, hm1, hm2, hd1, hd2, hh, hmi, hs, hn⟩ := h
  apply goTrimSpaceL_eq_self_rev
  · intro c hc
    simp [formatRFC3339, fmtDatePart, pad4] at hc
    rw [← hc]
    exact goIsSpace_digitChar (by omega)
  · intro c hc
    rw [formatRFC3339, fmtZoneISO] at hc
    by_cases h0 : t.offMin = 0
    · rw [if_pos h0] at hc
      simp [List.reverse_append] at hc
      rw [← hc]
      decide
    · rw [if_neg h0, pad2, pad2] at hc
      simp [List.reverse_append] at hc
      rw [← hc]
      exact goIsSpace_digitChar (by omega)

theorem trim_fmtRFC3339Z {t : DateTime} (h : RepresentableFields t) :
    goTrimSpaceL (formatRFC3339Z t) = formatRFC3339Z t := by
  obtain ⟨hy, hm1, hm2, hd1, hd2, hh, hmi, hs, hn⟩ := h
  apply goTrimSpaceL_eq_self_rev
  · intro c hc
    simp [formatRFC3339Z, fmtDatePart, pad4] at hc
    rw [← hc]
    exact goIsSpace_digitChar (by omega)
  · intro c hc
    simp [formatRFC3339Z, List.reverse_append] at hc
    rw [← hc]
    decide

theorem trim_fmtDateTimeSp {t : DateTime} (h : RepresentableFields t) :
    goTrimSpaceL (formatDateTimeSp t) = formatDateTimeSp t := by
  obtain ⟨hy, hm1, hm2, hd1, hd2, hh, hmi, hs, hn⟩ := h
  apply goTrimSpaceL_eq_self_rev
  · intro c hc
    simp [formatDateTimeSp, fmtDatePart, pad4] at hc
    rw [← hc]
    exact goIsSpace_digitChar (by omega)
  · intro c hc
    simp [formatDateTimeSp, fmtTimePart, pad2, List.reverse_append] at hc
    rw [← hc]
    exact goIsSpace_digitChar (by omega)

theorem trim_fmtDateOnly {t : DateTime} (h : RepresentableFields t) :
    goTrimSpaceL (formatDateOnly t) = formatDateOnly t := by
  obtain ⟨hy, hm1, hm2, hd1, hd2, hh, hmi, hs, hn⟩ := h
  apply goTrimSpaceL_eq_self_rev
  · intro c hc
    simp [formatDateOnly, fmtDatePart, pad4] at hc
    rw [← hc]
    exact goIsSpace_digitChar (by omega)
  · intro c hc
    simp [formatDateOnly, fmtDatePart, pad2, List.reverse_append] at hc
    rw [← hc]
    exact goIsSpace_digitChar (by omega)

theorem trim_fmtDayMonYear {t : DateTime} (h : RepresentableFields t) :
    goTrimSpaceL (formatDayMonYear t) = formatDayMonYear t := by
  obtain ⟨hy, hm1, hm2, hd1, hd2, hh, hmi, hs, hn⟩ := h
  apply goTrimSpaceL_eq_self_rev
  · intro c hc
    simp [formatDayMonYear, pad2] at hc
    rw [← hc]
    exact goIsSpace_digitChar (by have := daysInMonth_le t.year t.month; omega)
  · intro c hc
    simp [formatDayMonYear, pad4, List.reverse_append] at hc
    rw [← hc]
    exact goIsSpace_digitChar (by omega)

theorem trim_fmtMonthDayYear {t : DateTime} (h : RepresentableFields t) :
    goTrimSpaceL (formatMonthDayYear t) = formatMonthDayYear t := by
  obtain ⟨hy, hm1, hm2, hd1, hd2, hh, hmi, hs, hn⟩ := h
  apply goTrimSpaceL_eq_self_rev
  · intro c hc
    obtain ⟨p, ps, hname, _, hps⟩ := longName_head hm1 hm2
    rw [formatMonthDayYear, hname] at hc
    simp at hc
    rw [← hc]
    exact hps
  · intro c hc
    simp [formatMonthDayYear, pad4, List.reverse_append] at hc
    rw [← hc]
    exact goIsSpace_digitChar (by omega)

theorem trim_fmtDayFlexMonYear {t : DateTime} (h : RepresentableFields t) :
    goTrimSpaceL (formatDayFlexMonYear t) = formatDayFlexMonYear t := by
  obtain ⟨hy, hm1, hm2, hd1, hd2, hh, hmi, hs, hn⟩ := h
  apply goTrimSpaceL_eq_self_rev
  · intro c hc
    rw [formatDayFlexMonYear, fmtNoPad2] at hc
    by_cases hlt : t.day < 10
    · rw [if_pos hlt] at hc
      simp at hc
      rw [← hc]
      exact goIsSpace_digitChar (by omega)
    · rw [if_neg hlt, pad2] at hc
      simp at hc
      rw [← hc]
      exact goIsSpace_digitChar (by have := daysInMonth_le t.year t.month; omega)
  · intro c hc
    simp [formatDayFlexMonYear, pad4, List.reverse_append] at hc
    rw [← hc]
    exact goIsSpace_digitChar (by omega)

theorem trim_fmtSlashDate {t : DateTime} (h : RepresentableFields t) :
    goTrimSpaceL (formatSlashDate t) = formatSlashDate t := by
  obtain ⟨hy, hm1, hm2, hd1, hd2, hh, hmi, hs, hn⟩ := h
  apply goTrimSpaceL_eq_self_rev
  · intro c hc
    simp [formatSlashDate, pad4] at hc
    rw [← hc]
    exact goIsSpace_digitChar (by omega)
  · intro c hc
    simp [formatSlashDate, pad2, List.reverse_append] at hc
    rw [← hc]
    exact goIsSpace_digitChar (by omega)

theorem parseDateL_unfold (cs : List Char) :
    parseDateL cs =
      (whoisDateFormats.findSome? (fun f => goTimeParse f (goTrimSpaceL cs))).getD
        zeroDateTime := rfl

theorem parseDateL_fmtRFC3339 {t : DateTime} (h : RepresentableFields t)
    (hoff : t.offMin.natAbs ≤ 1439) : parseDateL (formatRFC3339 t) = t := by
  rw [parseDateL_unfold]
  simp only [trim_fmtRFC3339 h, whoisDateFormats, List.findSome?_cons,
    goTimeParse_fmtRFC3339 h hoff, Option.getD_some]

theorem parseDateL_fmtRFC3339Z {t : DateTime} (h : RepresentableFields t)
    (hz : t.offMin = 0) : parseDateL (formatRFC3339Z t) = t := by
  rw [parseDateL_unfold]
  simp only [trim_fmtRFC3339Z h, whoisDateFormats, List.findSome?_cons,
    goTimeParse_fmtRFC3339_onZ h hz, Option.getD_some]

theorem parseDateL_fmtDateTimeSp {t : DateTime} (h : RepresentableFields t)
    (hz : t.offMin = 0) : parseDateL (formatDateTimeSp t) = t := by
  have hy := h.1
  have hm99 : t.month ≤ 99 := by have := h.2.2.1; omega
  have hd99 : t.day ≤ 99 := by
    have := h.2.2.2.2.1; have := daysInMonth_le t.year t.month; omega
  have f1 : goTimeParse layoutRFC3339 (formatDateTimeSp t) = none := by
    rw [show layoutRFC3339 = layoutDateOnly ++ (.lit ['T'] ::
        [.hourFlex, .lit [':'], .minuteZero, .lit [':'], .secondZero, .zoneISO])
      from rfl,
      show formatDateTimeSp t = fmtDatePart t ++ ' ' :: fmtTimePart t from rfl]
    exact goTimeParse_dateThenLit_none hy hm99 hd99 (by decide) _ _
  have f2 : goTimeParse layoutRFC3339Z (formatDateTimeSp t) = none := by
    rw [show layoutRFC3339Z = layoutDateOnly ++ (.lit ['T'] ::
        [.hourFlex, .lit [':'], .minuteZero, .lit [':'], .secondZero, .lit ['Z']])
      from rfl,
      show formatDateTimeSp t = fmtDatePart t ++ ' ' :: fmtTimePart t from rfl]
    exact goTimeParse_dateThenLit_none hy hm99 hd99 (by decide) _ _
  rw [parseDateL_unfold]
  simp only [trim_fmtDateTimeSp h, whoisDateFormats, List.findSome?_cons, f1, f2,
    goTimeParse_fmtDateTimeSp h hz, Option.getD_some]

theorem parseDateL_fmtDateOnly {t : DateTime} (h : RepresentableFields t)
    (hz : t.offMin = 0) (h0 : t.hour = 0 ∧ t.minute = 0 ∧ t.second = 0) :
    parseDateL (formatDateOnly t) = t := by
  have hy := h.1
  have hm99 : t.month ≤ 99 := by have := h.2.2.1; omega
  have hd99 : t.day ≤ 99 := by
    have := h.2.2.2.2.1; have := daysInMonth_le t.year t.month; omega
  have f1 : goTimeParse layoutRFC3339 (formatDateOnly t) = none := by
    rw [show layoutRFC3339 = layoutDateOnly ++ (.lit ['T'] ::
        [.hourFlex, .lit [':'], .minuteZero, .lit [':'], .secondZero, .zoneISO])
      from rfl, show formatDateOnly t = fmtDatePart t from rfl]
    exact goTimeParse_dateThenLit_nil_none hy hm99 hd99 _ _
  have f2 : goTimeParse layoutRFC3339Z (formatDateOnly t) = none := by
    rw [show layoutRFC3339Z = layoutDateOnly ++ (.lit ['T'] ::
        [.hourFlex, .lit [':'], .minuteZero, .lit [':'], .secondZero, .lit ['Z']])
      from rfl, show formatDateOnly t = fmtDatePart t from rfl]
    exact goTimeParse_dateThenLit_nil_none hy hm99 hd99 _ _
  have f3 : goTimeParse layoutDateTimeSp (formatDateOnly t) = none := by
    rw [show layoutDateTimeSp = layoutDateOnly ++ (.lit [' '] ::
        [.hourFlex, .lit [':'], .minuteZero, .lit [':'], .secondZero]) from rfl,
      show formatDateOnly t = fmtDatePart t from rfl]
    exact goTimeParse_dateThenLit_nil_none hy hm99 hd99 _ _
  rw [parseDateL_unfold]
  simp only [trim_fmtDateOnly h, whoisDateFormats, List.findSome?_cons, f1, f2, f3,
    goTimeParse_fmtDateOnly h hz h0, Option.getD_some]

theorem parseDateL_fmtDayMonYear {t : DateTime} (h : RepresentableFields t)
    (hz : t.offMin = 0) (h0 : t.hour = 0 ∧ t.minute = 0 ∧ t.second = 0) :
    parseDateL (formatDayMonYear t) = t := by
  have hd99 : t.day ≤ 99 := by
    have := h.2.2.2.2.1; have := daysInMonth_le t.year t.month; omega
  have hfmt : formatDayMonYear t = pad2 t.day ++ '-' ::
      ((shortMonthNames.getD (t.month - 1) []) ++ '-' :: pad4 t.year) := rfl
  have f1 : goTimeParse layoutRFC3339 (formatDayMonYear t) = none := by
    rw [show layoutRFC3339 = LTok.year4 :: [.lit ['-'], .monthNum, .lit ['-'],
        .dayZero, .lit ['T'], .hourFlex, .lit [':'], .minuteZero, .lit [':'],
        .secondZero, .zoneISO] from rfl, hfmt]
    exact goTimeParse_year4_pad2dash_none hd99 _ _
  have f2 : goTimeParse layoutRFC3339Z (formatDayMonYear t) = none := by
    rw [show layoutRFC3339Z = LTok.year4 :: [.lit ['-'], .monthNum, .lit ['-'],
        .dayZero, .lit ['T'], .hourFlex, .lit [':'], .minuteZero, .lit [':'],
        .secondZero, .lit ['Z']] from rfl, hfmt]
    exact goTimeParse_year4_pad2dash_none hd99 _ _
  have f3 : goTimeParse layoutDateTimeSp (formatDayMonYear t) = none := by
    rw [show layoutDateTimeSp = LTok.year4 :: [.lit ['-'], .monthNum, .lit ['-'],
        .dayZero, .lit [' '], .hourFlex, .lit [':'], .minuteZero, .lit [':'],
        .secondZero] from rfl, hfmt]
    exact goTimeParse_year4_pad2dash_none hd99 _ _
  have f4 : goTimeParse layoutDateOnly (formatDayMonYear t) = none := by
    rw [show layoutDateOnly = LTok.year4 :: [.lit ['-'], .monthNum, .lit ['-'],
        .dayZero] from rfl, hfmt]
    exact goTimeParse_year4_pad2dash_none hd99 _ _
  rw [parseDateL_unfold]
  simp only [trim_fmtDayMonYear h, whoisDateFormats, List.findSome?_cons, f1, f2,
    f3, f4, goTimeParse_fmtDayMonYear h hz h0, Option.getD_some]

theorem parseDateL_fmtMonthDayYear {t : DateTime} (h : RepresentableFields t)
    (hz : t.offMin = 0) (h0 : t.hour = 0 ∧ t.minute = 0 ∧ t.second = 0) :
    parseDateL (formatMonthDayYear t) = t := by
  obtain ⟨p, ps, hname, hpd, _⟩ := longName_head h.2.1 h.2.2.1
  have hfmt : formatMonthDayYear t = p ::
      (ps ++ (' ' :: pad2 t.day ++ ' ' :: pad4 t.year)) := by
    rw [formatMonthDayYear, hname]
    simp [List.cons_append, List.append_assoc]
  have f1 : goTimeParse layoutRFC3339 (formatMonthDayYear t) = none := by
    rw [show layoutRFC3339 = LTok.year4 :: [.lit ['-'], .monthNum, .lit ['-'],
        .dayZero, .lit ['T'], .hourFlex, .lit [':'], .minuteZero, .lit [':'],
        .secondZero, .zoneISO] from rfl, hfmt]
    exact goTimeParse_year4_nondigit_none hpd _ _
  have f2 : goTimeParse layoutRFC3339Z (formatMonthDayYear t) = none := by
    rw [show layoutRFC3339Z = LTok.year4 :: [.lit ['-'], .monthNum, .lit ['-'],
        .dayZero, .lit ['T'], .hourFlex, .lit [':'], .minuteZero, .lit [':'],
        .secondZero, .lit ['Z']] from rfl, hfmt]
    exact goTimeParse_year4_nondigit_none hpd _ _
  have f3 : goTimeParse layoutDateTimeSp (formatMonthDayYear t) = none := by
    rw [show layoutDateTimeSp = LTok.year4 :: [.lit ['-'], .monthNum, .lit ['-'],
        .dayZero, .lit [' '], .hourFlex, .lit [':'], .minuteZero, .lit [':'],
        .secondZero] from rfl, hfmt]
    exact goTimeParse_year4_nondigit_none hpd _ _
  have f4 : goTimeParse layoutDateOnly (formatMonthDayYear t) = none := by
    rw [show layoutDateOnly = LTok.year4 :: [.lit ['-'], .monthNum, .lit ['-'],
        .dayZero] from rfl, hfmt]
    exact goTimeParse_year4_nondigit_none hpd _ _
  have f5 : goTimeParse layoutDayMonYear (formatMonthDayYear t) = none := by
    rw [show layoutDayMonYear = LTok.dayZero :: [.lit ['-'], .monthName false,
        .lit ['-'], .year4] from rfl, hfmt]
    exact goTimeParse_day2_nondigit_none hpd _ _
  rw [parseDateL_unfold]
  simp only [trim_fmtMonthDayYear h, whoisDateFormats, List.findSome?_cons, f1, f2,
    f3, f4, f5, goTimeParse_fmtMonthDayYear h hz h0, Option.getD_some]

theorem parseDateL_fmtDayFlexMonYear_lt10 {t : DateTime} (h : RepresentableFields t)
    (hz : t.offMin = 0) (h0 : t.hour = 0 ∧ t.minute = 0 ∧ t.second = 0)
    (hlt : t.day < 10) : parseDateL (formatDayFlexMonYear t) = t := by
  have hfmt : formatDayFlexMonYear t = digitChar t.day :: '-' ::
      ((shortMonthNames.getD (t.month - 1) []) ++ '-' :: pad4 t.year) := by
    rw [formatDayFlexMonYear, fmtNoPad2, if_pos hlt]
    rfl
  have f1 : goTimeParse layoutRFC3339 (formatDayFlexMonYear t) = none := by
    rw [show layoutRFC3339 = LTok.year4 :: [.lit ['-'], .monthNum, .lit ['-'],
        .dayZero, .lit ['T'], .hourFlex, .lit [':'], .minuteZero, .lit [':'],
        .secondZero, .zoneISO] from rfl, hfmt]
    exact goTimeParse_year4_digitDash_none hlt _ _
  have f2 : goTimeParse layoutRFC3339Z (formatDayFlexMonYear t) = none := by
    rw [show layoutRFC3339Z = LTok.year4 :: [.lit ['-'], .monthNum, .lit ['-'],
        .dayZero, .lit ['T'], .hourFlex, .lit [':'], .minuteZero, .lit [':'],
        .secondZero, .lit ['Z']] from rfl, hfmt]
    exact goTimeParse_year4_digitDash_none hlt _ _
  have f3 : goTimeParse layoutDateTimeSp (formatDayFlexMonYear t) = none := by
    rw [show layoutDateTimeSp = LTok.year4 :: [.lit ['-'], .monthNum, .lit ['-'],
        .dayZero, .lit [' '], .hourFlex, .lit [':'], .minuteZero, .lit [':'],
        .secondZero] from rfl, hfmt]
    exact goTimeParse_year4_digitDash_none hlt _ _
  have f4 : goTimeParse layoutDateOnly (formatDayFlexMonYear t) = none := by
    rw [show layoutDateOnly = LTok.year4 :: [.lit ['-'], .monthNum, .lit ['-'],
        .dayZero] from rfl, hfmt]
    exact goTimeParse_year4_digitDash_none hlt _ _
  have f5 : goTimeParse layoutDayMonYear (formatDayFlexMonYear t) = none := by
    rw [show layoutDayMonYear = LTok.dayZero :: [.lit ['-'], .monthName false,
        .lit ['-'], .year4] from rfl, hfmt]
    exact goTimeParse_day2_digitDash_none hlt _ _
  have f6 : goTimeParse layoutMonthDayYear (formatDayFlexMonYear t) = none := by
    rw [show layoutMonthDayYear = LTok.monthName true :: [.lit [' '], .dayZero,
        .lit [' '], .year4] from rfl, hfmt]
    exact goTimeParse_monthName_digit_none (digitChar_isDigit hlt) true _ _
  rw [parseDateL_unfold]
  simp only [trim_fmtDayFlexMonYear h, whoisDateFormats, List.findSome?_cons, f1,
    f2, f3, f4, f5, f6, goTimeParse_fmtDayFlexMonYear h hz h0 hlt, Option.getD_some]

theorem parseDateL_fmtSlashDate {t : DateTime} (h : RepresentableFields t)
    (hz : t.offMin = 0) (h0 : t.hour = 0 ∧ t.minute = 0 ∧ t.second = 0) :
    parseDateL (formatSlashDate t) = t := by
  have hy := h.1
  have hy1000 : t.year / 1000 < 10 := by omega
  have hfmt : formatSlashDate t = pad4 t.year ++ '/' ::
      (pad2 t.month ++ '/' :: pad2 t.day) := rfl
  have hfmt2 : formatSlashDate t = digitChar (t.year / 1000) ::
      (digitChar (t.year / 100 % 10) :: digitChar (t.year / 10 % 10) ::
        digitChar (t.year % 10) :: ('/' :: (pad2 t.month ++ '/' :: pad2 t.day))) := by
    rw [hfmt, pad4]
    rfl
  have f1 : goTimeParse layoutRFC3339 (formatSlashDate t) = none := by
    rw [show layoutRFC3339 = LTok.year4 :: LTok.lit ['-'] :: [.monthNum, .lit ['-'],
        .dayZero, .lit ['T'], .hourFlex, .lit [':'], .minuteZero, .lit [':'],
        .secondZero, .zoneISO] from rfl, hfmt]
    exact goTimeParse_yearDash_slash_none hy _ _
  have f2 : goTimeParse layoutRFC3339Z (formatSlashDate t) = none := by
    rw [show layoutRFC3339Z = LTok.year4 :: LTok.lit ['-'] :: [.monthNum, .lit ['-'],
        .dayZero, .lit ['T'], .hourFlex, .lit [':'], .minuteZero, .lit [':'],
        .secondZero, .lit ['Z']] from rfl, hfmt]
    exact goTimeParse_yearDash_slash_none hy _ _
  have f3 : goTimeParse layoutDateTimeSp (formatSlashDate t) = none := by
    rw [show layoutDateTimeSp = LTok.year4 :: LTok.lit ['-'] :: [.monthNum,
        .lit ['-'], .dayZero, .lit [' '], .hourFlex, .lit [':'], .minuteZero,
        .lit [':'], .secondZero] from rfl, hfmt]
    exact goTimeParse_yearDash_slash_none hy _ _
  have f4 : goTimeParse layoutDateOnly (formatSlashDate t) = none := by
    rw [show layoutDateOnly = LTok.year4 :: LTok.lit ['-'] :: [.monthNum,
        .lit ['-'], .dayZero] from rfl, hfmt]
    exact goTimeParse_yearDash_slash_none hy _ _
  have f5 : goTimeParse layoutDayMonYear (formatSlashDate t) = none := by
    rw [show layoutDayMonYear = LTok.dayZero :: LTok.lit ['-'] :: [.monthName false,
        .lit ['-'], .year4] from rfl, hfmt]
    exact goTimeParse_day2_pad4dash_none hy _ _
  have f6 : goTimeParse layoutMonthDayYear (formatSlashDate t) = none := by
    rw [show layoutMonthDayYear = LTok.monthName true :: [.lit [' '], .dayZero,
        .lit [' '], .year4] from rfl, hfmt2]
    exact goTimeParse_monthName_digit_none (digitChar_isDigit hy1000) true _ _
  have f7 : goTimeParse layoutDayFlexMonYear (formatSlashDate t) = none := by
    rw [show layoutDayFlexMonYear = LTok.dayFlex :: LTok.lit ['-'] ::
        [.monthName false, .lit ['-'], .year4] from rfl, hfmt]
    exact goTimeParse_dayFlex_pad4dash_none hy _ _
  rw [parseDateL_unfold]
  simp only [trim_fmtSlashDate h, whoisDateFormats, List.findSome?_cons, f1, f2,
    f3, f4, f5, f6, f7, goTimeParse_fmtSlashDate h hz h0, Option.getD_some]

/-- Claim C5: for each of the eight supported layouts, formatting a
timestamp representable in that layout (Go `time.Format` semantics) and
feeding the result to `parseDate` — which tries the layouts in the
documented order and returns the first success — yields the original
timestamp. -/
theorem C5_date_layout_roundtrip :
    ∀ t : DateTime, RepresentableFields t →
      (t.offMin.natAbs ≤ 1439 → parseDate (strOf (formatRFC3339 t)) = t) ∧
      (t.offMin = 0 →
        parseDate (strOf (formatRFC3339Z t)) = t ∧
        parseDate (strOf (formatDateTimeSp t)) = t) ∧
      (t.offMin = 0 ∧ t.hour = 0 ∧ t.minute = 0 ∧ t.second = 0 →
        parseDate (strOf (formatDateOnly t)) = t ∧
        parseDate (strOf (formatDayMonYear t)) = t ∧
        parseDate (strOf (formatMonthDayYear t)) = t ∧
        parseDate (strOf (formatDayFlexMonYear t)) = t ∧
        parseDate (strOf (formatSlashDate t)) = t) := by
  intro t h
  refine ⟨fun hoff => parseDateL_fmtRFC3339 h hoff,
    fun hz => ⟨parseDateL_fmtRFC3339Z h hz, parseDateL_fmtDateTimeSp h hz⟩,
    fun h0 => ⟨parseDateL_fmtDateOnly h h0.1 ⟨h0.2.1, h0.2.2.1, h0.2.2.2⟩,
      parseDateL_fmtDayMonYear h h0.1 ⟨h0.2.1, h0.2.2.1, h0.2.2.2⟩,
      parseDateL_fmtMonthDayYear h h0.1 ⟨h0.2.1, h0.2.2.1, h0.2.2.2⟩, ?_,
      parseDateL_fmtSlashDate h h0.1 ⟨h0.2.1, h0.2.2.1, h0.2.2.2⟩⟩⟩
  by_cases hlt : t.day < 10
  · exact parseDateL_fmtDayFlexMonYear_lt10 h h0.1 ⟨h0.2.1, h0.2.2.1, h0.2.2.2⟩ hlt
  · show parseDateL (formatDayFlexMonYear t) = t
    rw [formatDayFlexMonYear_ge10 (by omega)]
    exact parseDateL_fmtDayMonYear h h0.1 ⟨h0.2.1, h0.2.2.1, h0.2.2.2⟩

theorem C5_date_layout_roundtrip_witness :
    parseDate "2024-03-15T10:00:00Z" = ⟨2024, 3, 15, 10, 0, 0, 0, 0⟩ ∧
    parseDate "15-Mar-2024" = ⟨2024, 3, 15, 0, 0, 0, 0, 0⟩ := by
  constructor
  · have h := (C5_date_layout_roundtrip ⟨2024, 3, 15, 10, 0, 0, 0, 0⟩
      (by decide)).1 (by decide)
    have e : strOf (formatRFC3339 ⟨2024, 3, 15, 10, 0, 0, 0, 0⟩) =
        "2024-03-15T10:00:00Z" := by decide
    rwa [e] at h
  · have h := ((C5_date_layout_roundtrip ⟨2024, 3, 15, 0, 0, 0, 0, 0⟩
      (by decide)).2.2 (by decide)).2.1
    have e : strOf (formatDayMonYear ⟨2024, 3, 15, 0, 0, 0, 0, 0⟩) =
        "15-Mar-2024" := by decide
    rwa [e] at h

/-- Claim C2 (code bug): on the line
`Expiration Date: 2024-03-15T10:00:00Z` the greedy `.*:` of the
expiration regex captures only `00Z` — the text after the *last* colon —
so the RFC3339 value (which `parseDate` itself supports, as the creation
field shows) is never parsed and `ExpirationDate` stays unset. -/
theorem C2_expiration_regex_truncates_value :
    findValue expirationToks "Expiration Date: 2024-03-15T10:00:00Z".toList =
      some "00Z".toList ∧
    parseDate "2024-03-15T10:00:00Z" = ⟨2024, 3, 15, 10, 0, 0, 0, 0⟩ ∧
    (parseWhoisResponse "example.com" "Expiration Date: 2024-03-15T10:00:00Z"
      "srv").expirationDate = zeroDateTime ∧
    (parseWhoisResponse "example.com" "Creation Date: 2024-03-15T10:00:00Z"
      "srv").creationDate = ⟨2024, 3, 15, 10, 0, 0, 0, 0⟩ ∧
    findValue updatedToks "Last Updated: 2024-03-15T10:00:00Z".toList =
      some "00Z".toList := by
  refine ⟨by decide, by decide, by decide, by decide, by decide⟩

end UtilsApi
